import Mathlib

/-!
Verification of the sparse `C<M,z> = C accum (A +.* B^T)` core
(`sparse_mxm_ABT.hpp`, optimized sequential backend of GBTL).

The matrices, rows and the row-level primitives (`dot`, `masked_merge`,
`masked_accum`, the mask-iterator advance-and-check helper, and the
list-of-lists sparse-matrix container) live outside the provided source
file; they are modelled here from the specification's data model and
interface contracts.  The six row kernels and the six orchestration entry
points are translated statement by statement from `sparse_mxm_ABT.hpp`.

Scalar types are instantiated homogeneously (the C++ code casts between
`AScalarT`, `BScalarT`, the semiring result type, the accumulator result
type and `CScalarT`; here all of them are one type `α`, so every cast is
the identity).  The C++ pointer-identity test `(void*)&C == (void*)&B` is
modelled by an explicit `aliased : Bool` argument selecting the branch the
entry point takes; when `aliased = true` the caller passed the very same
matrix for `C` and `B`.
-/

namespace GBTLABT

/-- Modelled from the spec: a sparse row is an ordered sequence of
(column index, value) pairs, sorted ascending by column index. -/
abbrev RowT (α : Type) := List (Nat × α)

/-- Modelled from the spec: a semiring supplies an additive combine
operation and a multiplicative operation (homogeneous result type here). -/
structure SemiringOps (α : Type) where
  add : α → α → α
  mul : α → α → α

/-- Modelled from the spec (missing `LilSparseMatrix.hpp`): a sparse
matrix is a mapping from row index to a sparse row, with fixed dimensions
and a cached nonzero count (here recomputed from the rows). -/
structure LilSparseMatrix (α : Type) where
  ncols : Nat
  rows : List (RowT α)
deriving DecidableEq, Repr

namespace LilSparseMatrix

/-- Number of rows (the row list's length). -/
def nrows (m : LilSparseMatrix α) : Nat := m.rows.length

/-- Row access `m[i]`; out-of-range reads give the empty row. -/
def getRow (m : LilSparseMatrix α) (i : Nat) : RowT α := m.rows.getD i []

/-- Modelled from the spec: `setRow` replaces row `i` wholesale. -/
def setRow (m : LilSparseMatrix α) (i : Nat) (r : RowT α) : LilSparseMatrix α :=
  { m with rows := m.rows.set i r }

/-- Modelled from the spec: `nvals` is the total stored-entry count. -/
def nvals (m : LilSparseMatrix α) : Nat := (m.rows.map List.length).sum

/-- Modelled from the spec: `clear` empties every row, keeping dimensions. -/
def clear (m : LilSparseMatrix α) : LilSparseMatrix α :=
  { m with rows := List.replicate m.rows.length [] }

/-- A freshly constructed `nr × nc` matrix (all rows empty), as built for
the aliasing-avoidance temporaries `LilSparseMatrix<T> Ctmp(C.nrows(), C.ncols())`. -/
def ofDims (nr nc : Nat) : LilSparseMatrix α := { ncols := nc, rows := List.replicate nr [] }

end LilSparseMatrix

/-- Look up the value stored at column `j` of a row. -/
def lookupCol (r : RowT α) (j : Nat) : Option α :=
  (r.find? (fun p => p.1 == j)).map Prod.snd

/-- Structural presence of column `j` in a (mask) row. -/
def rowHas (r : RowT α) (j : Nat) : Bool := r.any (fun p => p.1 == j)

/-- Modelled from the spec (missing `sparse_helpers.hpp`): the
mask-iterator advance-and-check helper reports whether column `j` passes
the mask row, i.e. whether the mask row has a stored entry at `j`
(the mask is used structurally: only presence matters). -/
def advance_and_check_mask (m : RowT μ) (j : Nat) : Bool := rowHas m j

/-- The (possibly complemented) mask test applied by `masked_merge` and
`masked_accum`: column `j` passes iff it is present in the mask row XOR
the complement flag is set. -/
def maskTest (m : RowT μ) (comp : Bool) (j : Nat) : Bool := xor (rowHas m j) comp

/-- Modelled from the spec (missing `sparse_helpers.hpp`): `dot` reduces
the overlapping column values of two sparse rows with the semiring
(multiply matching pairs, combine with the additive operation), and
reports `none` when no term was produced (disjoint sparsity patterns). -/
def dot (semiring : SemiringOps α) (a b : RowT α) : Option α :=
  match a.filterMap (fun p => (lookupCol b p.1).map (fun bv => semiring.mul p.2 bv)) with
  | [] => none
  | t :: ts => some (ts.foldl semiring.add t)

/-- Union of two column-sorted rows, combining values on a shared column
with `f` applied to (left value, right value). -/
def unionWith (f : α → α → α) : RowT α → RowT α → RowT α
  | [], ys => ys
  | (i, a) :: xs, ys =>
    (ys.takeWhile (fun p => p.1 < i)) ++
      (match ys.dropWhile (fun p => p.1 < i) with
       | [] => (i, a) :: unionWith f xs []
       | (j, b) :: ys' =>
         if i == j then (i, f a b) :: unionWith f xs ys'
         else (i, a) :: unionWith f xs ((j, b) :: ys'))

/-- Union of two column-sorted rows where the second row's value wins on a
shared column. -/
def mergeRows (x y : RowT α) : RowT α := unionWith (fun _ b => b) x y

/-- Modelled from the spec (missing `sparse_helpers.hpp`): `masked_merge`
keeps the entries of `ex` whose column fails the mask test and writes the
entries of `nw` whose column passes it, `nw` taking precedence on overlap. -/
def masked_merge (m : RowT μ) (comp : Bool) (ex nw : RowT α) : RowT α :=
  mergeRows (ex.filter (fun p => !(maskTest m comp p.1)))
            (nw.filter (fun p => maskTest m comp p.1))

/-- Modelled from the spec (missing `sparse_helpers.hpp`): `masked_accum`
computes, for each column passing the mask test, `accum ex nw` when both
rows hold the column, the lone value otherwise; failing columns are
dropped. -/
def masked_accum (m : RowT μ) (comp : Bool) (accum : α → α → α)
    (ex nw : RowT α) : RowT α :=
  (unionWith accum ex nw).filter (fun p => maskTest m comp p.1)

/-- Modelled from the spec (missing `LilSparseMatrix.hpp`): `mergeRow`
merges a new row into row `i`, combining shared columns with the
accumulator (existing value first). -/
def LilSparseMatrix.mergeRow (m : LilSparseMatrix α) (i : Nat) (r : RowT α)
    (accum : α → α → α) : LilSparseMatrix α :=
  m.setRow i (unionWith accum (m.getRow i) r)

/-- The structural complement of a mask row within `nc` columns: a stored
entry (with the fixed mask value `v`) at exactly the in-bounds columns the
row does not store. -/
def complementRow (nc : Nat) (v : μ) (r : RowT μ) : RowT μ :=
  (List.range nc).filterMap (fun j => if rowHas r j then none else some (j, v))

/-- The structural complement of a mask matrix: every row complemented
within the mask's column bound. -/
def complementM (v : μ) (M : LilSparseMatrix μ) : LilSparseMatrix μ :=
  { ncols := M.ncols, rows := M.rows.map (complementRow M.ncols v) }

/-- The row invariant of the data model: every stored column index is
within the matrix's column bound. -/
def LilSparseMatrix.InBounds (m : LilSparseMatrix α) : Prop :=
  ∀ r ∈ m.rows, ∀ p ∈ r, p.1 < m.ncols

instance (m : LilSparseMatrix α) : Decidable m.InBounds :=
  inferInstanceAs (Decidable (∀ r ∈ m.rows, ∀ p ∈ r, p.1 < m.ncols))

/-! ## Row kernels, translated from `sparse_mxm_ABT.hpp` -/

/-- The inner `j` loop of `ABT_NoMask_NoAccum_kernel` (also of
`ABT_NoMask_Accum_kernel`): the entries `(j, A[i] . B[j])` for the
non-empty rows `j` of `B` whose dot product produced a value. -/
def ABT_NoMask_row (semiring : SemiringOps α) (A B : LilSparseMatrix α)
    (i : Nat) : RowT α :=
  (List.range B.nrows).filterMap (fun j =>
    if (B.getRow j).isEmpty then none
    else (dot semiring (A.getRow i) (B.getRow j)).map (fun t => (j, t)))

/-- The inner `j` loop of the masked kernels: like `ABT_NoMask_row` but a
column `j` is also skipped when the advance-and-check mask test equals the
skip polarity `comp` (`comp = false` for the plain mask, which skips
absent columns; `comp = true` for the complemented mask, which skips
present columns). -/
def ABT_Masked_row (m : RowT μ) (comp : Bool) (semiring : SemiringOps α)
    (A B : LilSparseMatrix α) (i : Nat) : RowT α :=
  (List.range B.nrows).filterMap (fun j =>
    if (B.getRow j).isEmpty then none
    else if advance_and_check_mask m j == comp then none
    else (dot semiring (A.getRow i) (B.getRow j)).map (fun t => (j, t)))

/-- `ABT_NoMask_NoAccum_kernel`: `C = A +.* B'`.  A row `i` with `A[i]`
empty is skipped by `continue` before the `setRow`, leaving `C[i]`
untouched. -/
def ABT_NoMask_NoAccum_kernel (C : LilSparseMatrix α) (semiring : SemiringOps α)
    (A B : LilSparseMatrix α) : LilSparseMatrix α :=
  (List.range A.nrows).foldl
    (fun Cacc i =>
      if (A.getRow i).isEmpty then Cacc
      else Cacc.setRow i (ABT_NoMask_row semiring A B i)) C

/-- `ABT_NoMask_Accum_kernel`: `C = C + A +.* B'`; rows with empty `A[i]`
or an empty contribution row are skipped (no merge). -/
def ABT_NoMask_Accum_kernel (C : LilSparseMatrix α) (accum : α → α → α)
    (semiring : SemiringOps α) (A B : LilSparseMatrix α) : LilSparseMatrix α :=
  (List.range A.nrows).foldl
    (fun Cacc i =>
      if (A.getRow i).isEmpty then Cacc
      else
        let T_row := ABT_NoMask_row semiring A B i
        if T_row.isEmpty then Cacc
        else Cacc.mergeRow i T_row accum) C

/-- `ABT_Mask_NoAccum_kernel`: `C<M,z> = A +.* B'`.  The contribution row
is computed only when both `A[i]` and `M[i]` are non-empty; every row is
then written back, by replacement or by masked merge. -/
def ABT_Mask_NoAccum_kernel (C : LilSparseMatrix α) (M : LilSparseMatrix μ)
    (semiring : SemiringOps α) (A B : LilSparseMatrix α)
    (replace_flag : Bool) : LilSparseMatrix α :=
  (List.range A.nrows).foldl
    (fun Cacc i =>
      let T_row := if !(A.getRow i).isEmpty && !(M.getRow i).isEmpty
                   then ABT_Masked_row (M.getRow i) false semiring A B i
                   else []
      if replace_flag then Cacc.setRow i T_row
      else Cacc.setRow i (masked_merge (M.getRow i) false (Cacc.getRow i) T_row)) C

/-- `ABT_Mask_Accum_kernel`: `C<M,z> = C + A +.* B'`. -/
def ABT_Mask_Accum_kernel (C : LilSparseMatrix α) (M : LilSparseMatrix μ)
    (accum : α → α → α) (semiring : SemiringOps α) (A B : LilSparseMatrix α)
    (replace_flag : Bool) : LilSparseMatrix α :=
  (List.range A.nrows).foldl
    (fun Cacc i =>
      let T_row := if !(A.getRow i).isEmpty && !(M.getRow i).isEmpty
                   then ABT_Masked_row (M.getRow i) false semiring A B i
                   else []
      let Z_row := masked_accum (M.getRow i) false accum (Cacc.getRow i) T_row
      if replace_flag then Cacc.setRow i Z_row
      else Cacc.setRow i (masked_merge (M.getRow i) false (Cacc.getRow i) Z_row)) C

/-- `ABT_CompMask_NoAccum_kernel`: `C<!M,z> = A +.* B'`.  No mask-row
emptiness shortcut is possible (the complement of an empty mask row
admits every column). -/
def ABT_CompMask_NoAccum_kernel (C : LilSparseMatrix α) (M : LilSparseMatrix μ)
    (semiring : SemiringOps α) (A B : LilSparseMatrix α)
    (replace_flag : Bool) : LilSparseMatrix α :=
  (List.range A.nrows).foldl
    (fun Cacc i =>
      let T_row := if !(A.getRow i).isEmpty
                   then ABT_Masked_row (M.getRow i) true semiring A B i
                   else []
      if replace_flag then Cacc.setRow i T_row
      else Cacc.setRow i (masked_merge (M.getRow i) true (Cacc.getRow i) T_row)) C

/-- `ABT_CompMask_Accum_kernel`: `C<!M,z> = C + A +.* B'`. -/
def ABT_CompMask_Accum_kernel (C : LilSparseMatrix α) (M : LilSparseMatrix μ)
    (accum : α → α → α) (semiring : SemiringOps α) (A B : LilSparseMatrix α)
    (replace_flag : Bool) : LilSparseMatrix α :=
  (List.range A.nrows).foldl
    (fun Cacc i =>
      let T_row := if !(A.getRow i).isEmpty
                   then ABT_Masked_row (M.getRow i) true semiring A B i
                   else []
      let Z_row := masked_accum (M.getRow i) true accum (Cacc.getRow i) T_row
      if replace_flag then Cacc.setRow i Z_row
      else Cacc.setRow i (masked_merge (M.getRow i) true (Cacc.getRow i) Z_row)) C

/-! ## Orchestration entry points, translated from `sparse_mxm_ABT.hpp`.
`aliased` models the pointer-identity test `(void*)&C == (void*)&B`. -/

/-- `sparse_mxm_NoMask_NoAccum_ABT`: short-circuit to `C.clear()` when `A`
or `B` stores nothing; under aliasing, run the kernel into a fresh
temporary of `C`'s dimensions and swap it into `C`. -/
def sparse_mxm_NoMask_NoAccum_ABT (C : LilSparseMatrix α)
    (semiring : SemiringOps α) (A B : LilSparseMatrix α)
    (aliased : Bool) : LilSparseMatrix α :=
  if A.nvals == 0 || B.nvals == 0 then C.clear
  else if aliased then
    ABT_NoMask_NoAccum_kernel (LilSparseMatrix.ofDims C.nrows C.ncols) semiring A B
  else
    ABT_NoMask_NoAccum_kernel C semiring A B

/-- `sparse_mxm_NoMask_Accum_ABT`: return `C` unchanged when `A` or `B`
stores nothing; under aliasing, run the no-accum kernel into a temporary
and `mergeRow` every row of it into `C`. -/
def sparse_mxm_NoMask_Accum_ABT (C : LilSparseMatrix α) (accum : α → α → α)
    (semiring : SemiringOps α) (A B : LilSparseMatrix α)
    (aliased : Bool) : LilSparseMatrix α :=
  if A.nvals == 0 || B.nvals == 0 then C
  else if aliased then
    let Ctmp := ABT_NoMask_NoAccum_kernel (LilSparseMatrix.ofDims C.nrows C.ncols) semiring A B
    (List.range C.nrows).foldl
      (fun Cacc i => Cacc.mergeRow i (Ctmp.getRow i) accum) C
  else
    ABT_NoMask_Accum_kernel C accum semiring A B

/-- `sparse_mxm_Mask_NoAccum_ABT` with its two short-circuits; under
aliasing the kernel runs into a temporary with `replace = true` and the
result is swapped in (replace) or masked-merged row by row (merge). -/
def sparse_mxm_Mask_NoAccum_ABT (C : LilSparseMatrix α) (M : LilSparseMatrix μ)
    (semiring : SemiringOps α) (A B : LilSparseMatrix α)
    (replace_flag : Bool) (aliased : Bool) : LilSparseMatrix α :=
  if replace_flag && (A.nvals == 0 || B.nvals == 0 || M.nvals == 0) then C.clear
  else if !replace_flag && (M.nvals == 0) then C
  else if aliased then
    let Ctmp := ABT_Mask_NoAccum_kernel (LilSparseMatrix.ofDims C.nrows C.ncols) M semiring A B true
    if replace_flag then Ctmp
    else
      (List.range C.nrows).foldl
        (fun Cacc i =>
          Cacc.setRow i (masked_merge (M.getRow i) false (Cacc.getRow i) (Ctmp.getRow i))) C
  else
    ABT_Mask_NoAccum_kernel C M semiring A B replace_flag

/-- `sparse_mxm_Mask_Accum_ABT` with its two short-circuits; under
aliasing the no-accum kernel runs into a temporary with `replace = true`,
then each row is accumulated against the saved `C` row and written back. -/
def sparse_mxm_Mask_Accum_ABT (C : LilSparseMatrix α) (M : LilSparseMatrix μ)
    (accum : α → α → α) (semiring : SemiringOps α) (A B : LilSparseMatrix α)
    (replace_flag : Bool) (aliased : Bool) : LilSparseMatrix α :=
  if replace_flag && (M.nvals == 0) then C.clear
  else if !replace_flag && (M.nvals == 0) then C
  else if aliased then
    let Ctmp := ABT_Mask_NoAccum_kernel (LilSparseMatrix.ofDims C.nrows C.ncols) M semiring A B true
    (List.range C.nrows).foldl
      (fun Cacc i =>
        let Z_row := masked_accum (M.getRow i) false accum (Cacc.getRow i) (Ctmp.getRow i)
        if replace_flag then Cacc.setRow i Z_row
        else Cacc.setRow i (masked_merge (M.getRow i) false (Cacc.getRow i) Z_row)) C
  else
    ABT_Mask_Accum_kernel C M accum semiring A B replace_flag

/-- `sparse_mxm_CompMask_NoAccum_ABT`: single short-circuit (replace with
empty `A` or `B`); aliasing handled like the uncomplemented variant. -/
def sparse_mxm_CompMask_NoAccum_ABT (C : LilSparseMatrix α) (M : LilSparseMatrix μ)
    (semiring : SemiringOps α) (A B : LilSparseMatrix α)
    (replace_flag : Bool) (aliased : Bool) : LilSparseMatrix α :=
  if replace_flag && (A.nvals == 0 || B.nvals == 0) then C.clear
  else if aliased then
    let Ctmp := ABT_CompMask_NoAccum_kernel (LilSparseMatrix.ofDims C.nrows C.ncols) M semiring A B true
    if replace_flag then Ctmp
    else
      (List.range C.nrows).foldl
        (fun Cacc i =>
          Cacc.setRow i (masked_merge (M.getRow i) true (Cacc.getRow i) (Ctmp.getRow i))) C
  else
    ABT_CompMask_NoAccum_kernel C M semiring A B replace_flag

/-- `sparse_mxm_CompMask_Accum_ABT`: no short-circuit at all. -/
def sparse_mxm_CompMask_Accum_ABT (C : LilSparseMatrix α) (M : LilSparseMatrix μ)
    (accum : α → α → α) (semiring : SemiringOps α) (A B : LilSparseMatrix α)
    (replace_flag : Bool) (aliased : Bool) : LilSparseMatrix α :=
  if aliased then
    let Ctmp := ABT_CompMask_NoAccum_kernel (LilSparseMatrix.ofDims C.nrows C.ncols) M semiring A B true
    (List.range C.nrows).foldl
      (fun Cacc i =>
        let Z_row := masked_accum (M.getRow i) true accum (Cacc.getRow i) (Ctmp.getRow i)
        if replace_flag then Cacc.setRow i Z_row
        else Cacc.setRow i (masked_merge (M.getRow i) true (Cacc.getRow i) Z_row)) C
  else
    ABT_CompMask_Accum_kernel C M accum semiring A B replace_flag

/-- The plus-times semiring on `Nat`, used for concrete witnesses. -/
def srN : SemiringOps Nat := ⟨Nat.add, Nat.mul⟩

/-- The spec's worked example (section 8): `A = [[1,0,2],[0,0,0]]`,
`B = [[1,0,0],[0,0,2]]`, plus-times, no mask, no accum: row 0 of the
product is `[(0,1),(1,4)]`. -/
example :
    (sparse_mxm_NoMask_NoAccum_ABT
      (LilSparseMatrix.ofDims 2 2) srN
      ⟨3, [[(0, 1), (2, 2)], []]⟩ ⟨3, [[(0, 1)], [(2, 2)]]⟩ false).getRow 0
      = [(0, 1), (1, 4)] := by decide

/-! ## Container lemmas -/

namespace LilSparseMatrix

theorem nrows_setRow (m : LilSparseMatrix α) (i : Nat) (r : RowT α) :
    (m.setRow i r).nrows = m.nrows := by
  simp [setRow, nrows]

theorem ncols_setRow (m : LilSparseMatrix α) (i : Nat) (r : RowT α) :
    (m.setRow i r).ncols = m.ncols := rfl

theorem nrows_clear (m : LilSparseMatrix α) : m.clear.nrows = m.nrows := by
  simp [clear, nrows]

theorem ncols_clear (m : LilSparseMatrix α) : m.clear.ncols = m.ncols := rfl

theorem nrows_ofDims (nr nc : Nat) : (ofDims (α := α) nr nc).nrows = nr := by
  simp [ofDims, nrows]

theorem ncols_ofDims (nr nc : Nat) : (ofDims (α := α) nr nc).ncols = nc := rfl

theorem getRow_ofDims (nr nc i : Nat) : (ofDims (α := α) nr nc).getRow i = [] := by
  simp only [ofDims, getRow, List.getD_eq_getElem?_getD, List.getElem?_replicate]
  split <;> rfl

theorem getRow_clear (m : LilSparseMatrix α) (i : Nat) : m.clear.getRow i = [] := by
  simp only [clear, getRow, List.getD_eq_getElem?_getD, List.getElem?_replicate]
  split <;> rfl

theorem clear_eq_ofDims (m : LilSparseMatrix α) : m.clear = ofDims m.nrows m.ncols := rfl

theorem nvals_clear (m : LilSparseMatrix α) : m.clear.nvals = 0 := by
  simp [clear, nvals, List.map_replicate, List.sum_replicate]

theorem getRow_eq_nil_of_le (m : LilSparseMatrix α) (k : Nat) (h : m.nrows ≤ k) :
    m.getRow k = [] := by
  simp only [getRow, List.getD_eq_getElem?_getD]
  rw [List.getElem?_eq_none h]
  rfl

theorem getRow_setRow (m : LilSparseMatrix α) (i k : Nat) (r : RowT α) :
    (m.setRow i r).getRow k = if k = i ∧ k < m.nrows then r else m.getRow k := by
  simp only [setRow, getRow, nrows, List.getD_eq_getElem?_getD, List.getElem?_set]
  by_cases h1 : i = k
  · subst h1
    by_cases h2 : i < m.rows.length
    · simp [h2]
    · simp [h2, List.getElem?_eq_none (Nat.le_of_not_lt h2)]
  · have h1' : ¬(k = i) := fun h => h1 h.symm
    simp [h1, h1']

theorem ext_getRow {C D : LilSparseMatrix α} (hc : C.ncols = D.ncols)
    (hn : C.nrows = D.nrows) (h : ∀ k, C.getRow k = D.getRow k) : C = D := by
  cases C with | mk c1 r1 =>
  cases D with | mk c2 r2 =>
  dsimp only [ncols, nrows] at hc hn
  subst hc
  congr 1
  apply List.ext_getElem hn
  intro k h1 h2
  have hk := h k
  simpa [getRow, List.getD_eq_getElem?_getD, List.getElem?_eq_getElem h1,
    List.getElem?_eq_getElem h2] using hk

theorem getRow_eq_nil_of_nvals (m : LilSparseMatrix α) (h : m.nvals = 0) (k : Nat) :
    m.getRow k = [] := by
  rcases Nat.lt_or_ge k m.nrows with hk | hk
  · have hk2 : k < m.rows.length := hk
    have hmem : m.rows[k] ∈ m.rows := List.getElem_mem _
    have hlen : (m.rows[k]).length = 0 :=
      List.sum_eq_zero_iff.mp h _ (List.mem_map_of_mem _ hmem)
    have h0 : m.rows[k] = [] := List.length_eq_zero.mp hlen
    simp [getRow, List.getD_eq_getElem?_getD, List.getElem?_eq_getElem hk, h0]
  · exact m.getRow_eq_nil_of_le k hk

end LilSparseMatrix

/-! ## Row-helper lemmas -/

theorem rowHas_nil (j : Nat) : rowHas ([] : RowT μ) j = false := rfl

theorem rowHas_eq_true_iff {r : RowT μ} {j : Nat} :
    rowHas r j = true ↔ ∃ a, (j, a) ∈ r := by
  simp only [rowHas, List.any_eq_true]
  constructor
  · rintro ⟨p, hp, he⟩
    have hj : p.1 = j := beq_iff_eq.mp he
    refine ⟨p.2, ?_⟩
    have hpe : (p.1, p.2) ∈ r := by simpa using hp
    rwa [hj] at hpe
  · rintro ⟨a, ha⟩
    exact ⟨(j, a), ha, by simp⟩

theorem maskTest_nil (c : Bool) (j : Nat) : maskTest ([] : RowT μ) c j = c := by
  cases c <;> rfl

theorem mem_complementRow {nc : Nat} {v : μ} {r : RowT μ} {p : Nat × μ} :
    p ∈ complementRow nc v r ↔ p.1 < nc ∧ rowHas r p.1 = false ∧ p.2 = v := by
  unfold complementRow
  rw [List.mem_filterMap]
  constructor
  · rintro ⟨j, hj, hf⟩
    by_cases h : rowHas r j
    · simp [h] at hf
    · have h' : rowHas r j = false := by simpa using h
      rw [if_neg (by simp [h'])] at hf
      injection hf with hf
      cases hf
      exact ⟨List.mem_range.mp hj, h', rfl⟩
  · rintro ⟨h1, h2, h3⟩
    refine ⟨p.1, List.mem_range.mpr h1, ?_⟩
    rw [if_neg (by simp [h2]), ← h3]

theorem rowHas_complementRow (nc : Nat) (v : μ) (r : RowT μ) (j : Nat) :
    rowHas (complementRow nc v r) j = (decide (j < nc) && !rowHas r j) := by
  by_cases h1 : j < nc <;> by_cases h2 : rowHas r j = true
  · have : rowHas (complementRow nc v r) j = false := by
      by_contra hcon
      obtain ⟨a, ha⟩ := rowHas_eq_true_iff.mp (eq_true_of_ne_false hcon)
      have := mem_complementRow.mp ha
      simp [h2] at this
    simp [this, h1, h2]
  · have : rowHas (complementRow nc v r) j = true :=
      rowHas_eq_true_iff.mpr ⟨v, mem_complementRow.mpr ⟨h1, by simpa using h2, rfl⟩⟩
    simp [this, h1, h2]
  · have : rowHas (complementRow nc v r) j = false := by
      by_contra hcon
      obtain ⟨a, ha⟩ := rowHas_eq_true_iff.mp (eq_true_of_ne_false hcon)
      have := mem_complementRow.mp ha
      exact h1 this.1
    simp [this, h1]
  · have : rowHas (complementRow nc v r) j = false := by
      by_contra hcon
      obtain ⟨a, ha⟩ := rowHas_eq_true_iff.mp (eq_true_of_ne_false hcon)
      have := mem_complementRow.mp ha
      exact h1 this.1
    simp [this, h1]

theorem maskTest_complementRow {nc : Nat} (v : μ) (r : RowT μ) {j : Nat} (h : j < nc) :
    maskTest (complementRow nc v r) false j = maskTest r true j := by
  simp [maskTest, rowHas_complementRow, h, Bool.xor_true, Bool.xor_false]

theorem complementRow_eq_nil_iff {nc : Nat} {v : μ} {r : RowT μ} :
    complementRow nc v r = [] ↔ ∀ j, j < nc → rowHas r j = true := by
  unfold complementRow
  rw [List.filterMap_eq_nil_iff]
  constructor
  · intro h j hj
    have := h j (List.mem_range.mpr hj)
    by_cases hr : rowHas r j
    · exact hr
    · simp [hr] at this
  · intro h j hj
    simp [h j (List.mem_range.mp hj)]

theorem unionWith_nil_left (f : α → α → α) (y : RowT α) : unionWith f [] y = y := rfl

theorem unionWith_nil_right (f : α → α → α) (x : RowT α) : unionWith f x [] = x := by
  induction x with
  | nil => rfl
  | cons p xs ih =>
    obtain ⟨i, a⟩ := p
    simp [unionWith, ih]

theorem mem_unionWith_imp {f : α → α → α} {x y : RowT α} {p : Nat × α}
    (hp : p ∈ unionWith f x y) :
    (∃ a, (p.1, a) ∈ x) ∨ (∃ b, (p.1, b) ∈ y) := by
  induction x generalizing y with
  | nil => exact Or.inr ⟨p.2, by simpa [unionWith_nil_left] using hp⟩
  | cons q xs ih =>
    obtain ⟨i, a⟩ := q
    rw [unionWith] at hp
    rcases List.mem_append.mp hp with hl | hr
    · exact Or.inr ⟨p.2, by
        have : p ∈ y := (List.takeWhile_sublist _).mem hl
        simpa using this⟩
    · revert hr
      cases hd : y.dropWhile (fun q => decide (q.1 < i)) with
      | nil =>
        intro hr
        dsimp only at hr
        rcases List.mem_cons.mp hr with he | hm
        · exact Or.inl ⟨a, by simp [he]⟩
        · rcases ih hm with h | h
          · exact Or.inl ⟨h.choose, List.mem_cons_of_mem _ h.choose_spec⟩
          · simp at h
      | cons q ys' =>
        obtain ⟨jj, b⟩ := q
        intro hr
        dsimp only at hr
        have hsub : ∀ z, z ∈ (jj, b) :: ys' → z ∈ y := by
          intro z hz
          exact (List.dropWhile_sublist _).mem (hd ▸ hz)
        by_cases hij : (i == jj) = true
        · rw [if_pos hij] at hr
          rcases List.mem_cons.mp hr with he | hm
          · exact Or.inl ⟨a, by simp [he]⟩
          · rcases ih hm with h | h
            · exact Or.inl ⟨h.choose, List.mem_cons_of_mem _ h.choose_spec⟩
            · exact Or.inr ⟨h.choose, hsub _ (List.mem_cons_of_mem _ h.choose_spec)⟩
        · rw [if_neg hij] at hr
          rcases List.mem_cons.mp hr with he | hm
          · exact Or.inl ⟨a, by simp [he]⟩
          · rcases ih hm with h | h
            · exact Or.inl ⟨h.choose, List.mem_cons_of_mem _ h.choose_spec⟩
            · exact Or.inr ⟨h.choose, hsub _ h.choose_spec⟩

/-! ## Characterization of the row-loop folds -/

theorem range_foldl_nrows (f : LilSparseMatrix α → Nat → LilSparseMatrix α)
    (h : ∀ Cacc i, (f Cacc i).nrows = Cacc.nrows) (n : Nat) (C : LilSparseMatrix α) :
    ((List.range n).foldl f C).nrows = C.nrows := by
  induction n with
  | zero => rfl
  | succ n ih =>
    rw [List.range_succ, List.foldl_append, List.foldl_cons, List.foldl_nil, h, ih]

theorem range_foldl_ncols (f : LilSparseMatrix α → Nat → LilSparseMatrix α)
    (h : ∀ Cacc i, (f Cacc i).ncols = Cacc.ncols) (n : Nat) (C : LilSparseMatrix α) :
    ((List.range n).foldl f C).ncols = C.ncols := by
  induction n with
  | zero => rfl
  | succ n ih =>
    rw [List.range_succ, List.foldl_append, List.foldl_cons, List.foldl_nil, h, ih]

theorem range_foldl_getRow (f : LilSparseMatrix α → Nat → LilSparseMatrix α)
    (φ : Nat → RowT α → RowT α)
    (hn : ∀ Cacc i, (f Cacc i).nrows = Cacc.nrows)
    (hg : ∀ Cacc i k, (f Cacc i).getRow k
            = if k = i ∧ k < Cacc.nrows then φ i (Cacc.getRow k) else Cacc.getRow k)
    (n : Nat) (C : LilSparseMatrix α) (k : Nat) :
    ((List.range n).foldl f C).getRow k
      = if k < n ∧ k < C.nrows then φ k (C.getRow k) else C.getRow k := by
  induction n with
  | zero => simp
  | succ n ih =>
    rw [List.range_succ, List.foldl_append, List.foldl_cons, List.foldl_nil, hg]
    rw [range_foldl_nrows f hn n C]
    by_cases h1 : k = n
    · subst h1
      by_cases h2 : k < C.nrows
      · rw [if_pos ⟨rfl, h2⟩, ih, if_neg (by omega), if_pos ⟨Nat.lt_succ_self k, h2⟩]
      · rw [if_neg (by tauto), ih, if_neg (by tauto), if_neg (by tauto)]
    · rw [if_neg (by tauto), ih]
      by_cases h2 : k < n ∧ k < C.nrows
      · rw [if_pos h2, if_pos ⟨Nat.lt_succ_of_lt h2.1, h2.2⟩]
      · rw [if_neg h2, if_neg (by rintro ⟨hkn, hkr⟩; exact h2 ⟨by omega, hkr⟩)]

/-! ## Kernel characterizations (row `k` of each kernel's result) -/

theorem ABT_NoMask_NoAccum_kernel_nrows (C : LilSparseMatrix α) (semiring : SemiringOps α)
    (A B : LilSparseMatrix α) :
    (ABT_NoMask_NoAccum_kernel C semiring A B).nrows = C.nrows := by
  unfold ABT_NoMask_NoAccum_kernel
  exact range_foldl_nrows _
    (fun Cacc i => by split
                      · rfl
                      · exact Cacc.nrows_setRow ..) _ _

theorem ABT_NoMask_NoAccum_kernel_ncols (C : LilSparseMatrix α) (semiring : SemiringOps α)
    (A B : LilSparseMatrix α) :
    (ABT_NoMask_NoAccum_kernel C semiring A B).ncols = C.ncols := by
  unfold ABT_NoMask_NoAccum_kernel
  exact range_foldl_ncols _
    (fun Cacc i => by split
                      · rfl
                      · exact Cacc.ncols_setRow ..) _ _

theorem ABT_NoMask_NoAccum_kernel_getRow (C : LilSparseMatrix α) (semiring : SemiringOps α)
    (A B : LilSparseMatrix α) (k : Nat) :
    (ABT_NoMask_NoAccum_kernel C semiring A B).getRow k
      = if k < A.nrows ∧ k < C.nrows then
          (if (A.getRow k).isEmpty then C.getRow k else ABT_NoMask_row semiring A B k)
        else C.getRow k := by
  unfold ABT_NoMask_NoAccum_kernel
  rw [range_foldl_getRow _
    (fun i r => if (A.getRow i).isEmpty then r else ABT_NoMask_row semiring A B i)
    (fun Cacc i => by split
                      · rfl
                      · exact Cacc.nrows_setRow ..)
    (fun Cacc i k => by
      by_cases hA : (A.getRow i).isEmpty
      · simp [hA]
      · simp [hA, LilSparseMatrix.getRow_setRow])]

theorem ABT_NoMask_Accum_kernel_nrows (C : LilSparseMatrix α) (accum : α → α → α)
    (semiring : SemiringOps α) (A B : LilSparseMatrix α) :
    (ABT_NoMask_Accum_kernel C accum semiring A B).nrows = C.nrows := by
  unfold ABT_NoMask_Accum_kernel
  exact range_foldl_nrows _
    (fun Cacc i => by
      (try dsimp only)
      split
      · rfl
      · split
        · rfl
        · exact Cacc.nrows_setRow ..) _ _

theorem ABT_NoMask_Accum_kernel_ncols (C : LilSparseMatrix α) (accum : α → α → α)
    (semiring : SemiringOps α) (A B : LilSparseMatrix α) :
    (ABT_NoMask_Accum_kernel C accum semiring A B).ncols = C.ncols := by
  unfold ABT_NoMask_Accum_kernel
  exact range_foldl_ncols _
    (fun Cacc i => by
      (try dsimp only)
      split
      · rfl
      · split
        · rfl
        · exact Cacc.ncols_setRow ..) _ _

theorem ABT_NoMask_Accum_kernel_getRow (C : LilSparseMatrix α) (accum : α → α → α)
    (semiring : SemiringOps α) (A B : LilSparseMatrix α) (k : Nat) :
    (ABT_NoMask_Accum_kernel C accum semiring A B).getRow k
      = if k < A.nrows ∧ k < C.nrows then
          (if (A.getRow k).isEmpty then C.getRow k
           else if (ABT_NoMask_row semiring A B k).isEmpty then C.getRow k
           else unionWith accum (C.getRow k) (ABT_NoMask_row semiring A B k))
        else C.getRow k := by
  unfold ABT_NoMask_Accum_kernel
  rw [range_foldl_getRow _
    (fun i r => if (A.getRow i).isEmpty then r
                else if (ABT_NoMask_row semiring A B i).isEmpty then r
                else unionWith accum r (ABT_NoMask_row semiring A B i))
    (fun Cacc i => by
      (try dsimp only)
      split
      · rfl
      · split
        · rfl
        · exact Cacc.nrows_setRow ..)
    (fun Cacc i k => by
      by_cases hA : (A.getRow i).isEmpty
      · simp [hA]
      · by_cases hT : (ABT_NoMask_row semiring A B i).isEmpty
        · simp [hA, hT]
        · simp only [hA, hT, Bool.false_eq_true, if_false, LilSparseMatrix.mergeRow,
            LilSparseMatrix.getRow_setRow]
          split
          · rename_i h; rw [h.1]
          · rfl)]

theorem ABT_Mask_NoAccum_kernel_nrows (C : LilSparseMatrix α) (M : LilSparseMatrix μ)
    (semiring : SemiringOps α) (A B : LilSparseMatrix α) (replace_flag : Bool) :
    (ABT_Mask_NoAccum_kernel C M semiring A B replace_flag).nrows = C.nrows := by
  unfold ABT_Mask_NoAccum_kernel
  exact range_foldl_nrows _
    (fun Cacc i => by (try dsimp only); split <;> exact Cacc.nrows_setRow ..) _ _

theorem ABT_Mask_NoAccum_kernel_ncols (C : LilSparseMatrix α) (M : LilSparseMatrix μ)
    (semiring : SemiringOps α) (A B : LilSparseMatrix α) (replace_flag : Bool) :
    (ABT_Mask_NoAccum_kernel C M semiring A B replace_flag).ncols = C.ncols := by
  unfold ABT_Mask_NoAccum_kernel
  exact range_foldl_ncols _
    (fun Cacc i => by (try dsimp only); split <;> exact Cacc.ncols_setRow ..) _ _

theorem ABT_Mask_NoAccum_kernel_getRow (C : LilSparseMatrix α) (M : LilSparseMatrix μ)
    (semiring : SemiringOps α) (A B : LilSparseMatrix α) (replace_flag : Bool) (k : Nat) :
    (ABT_Mask_NoAccum_kernel C M semiring A B replace_flag).getRow k
      = if k < A.nrows ∧ k < C.nrows then
          (let T := if !(A.getRow k).isEmpty && !(M.getRow k).isEmpty
                    then ABT_Masked_row (M.getRow k) false semiring A B k else []
           if replace_flag then T
           else masked_merge (M.getRow k) false (C.getRow k) T)
        else C.getRow k := by
  unfold ABT_Mask_NoAccum_kernel
  rw [range_foldl_getRow _
    (fun i r =>
      let T := if !(A.getRow i).isEmpty && !(M.getRow i).isEmpty
               then ABT_Masked_row (M.getRow i) false semiring A B i else []
      if replace_flag then T
      else masked_merge (M.getRow i) false r T)
    (fun Cacc i => by (try dsimp only); split <;> exact Cacc.nrows_setRow ..)
    (fun Cacc i k => by
      (try dsimp only)
      cases replace_flag with
      | true => simp [LilSparseMatrix.getRow_setRow]
      | false =>
        simp only [Bool.false_eq_true, if_false, LilSparseMatrix.getRow_setRow]
        split
        · rename_i h; rw [h.1]
        · rfl)]

theorem ABT_Mask_Accum_kernel_nrows (C : LilSparseMatrix α) (M : LilSparseMatrix μ)
    (accum : α → α → α) (semiring : SemiringOps α) (A B : LilSparseMatrix α)
    (replace_flag : Bool) :
    (ABT_Mask_Accum_kernel C M accum semiring A B replace_flag).nrows = C.nrows := by
  unfold ABT_Mask_Accum_kernel
  exact range_foldl_nrows _
    (fun Cacc i => by (try dsimp only); split <;> exact Cacc.nrows_setRow ..) _ _

theorem ABT_Mask_Accum_kernel_ncols (C : LilSparseMatrix α) (M : LilSparseMatrix μ)
    (accum : α → α → α) (semiring : SemiringOps α) (A B : LilSparseMatrix α)
    (replace_flag : Bool) :
    (ABT_Mask_Accum_kernel C M accum semiring A B replace_flag).ncols = C.ncols := by
  unfold ABT_Mask_Accum_kernel
  exact range_foldl_ncols _
    (fun Cacc i => by (try dsimp only); split <;> exact Cacc.ncols_setRow ..) _ _

theorem ABT_Mask_Accum_kernel_getRow (C : LilSparseMatrix α) (M : LilSparseMatrix μ)
    (accum : α → α → α) (semiring : SemiringOps α) (A B : LilSparseMatrix α)
    (replace_flag : Bool) (k : Nat) :
    (ABT_Mask_Accum_kernel C M accum semiring A B replace_flag).getRow k
      = if k < A.nrows ∧ k < C.nrows then
          (let T := if !(A.getRow k).isEmpty && !(M.getRow k).isEmpty
                    then ABT_Masked_row (M.getRow k) false semiring A B k else []
           let Z := masked_accum (M.getRow k) false accum (C.getRow k) T
           if replace_flag then Z
           else masked_merge (M.getRow k) false (C.getRow k) Z)
        else C.getRow k := by
  unfold ABT_Mask_Accum_kernel
  rw [range_foldl_getRow _
    (fun i r =>
      let T := if !(A.getRow i).isEmpty && !(M.getRow i).isEmpty
               then ABT_Masked_row (M.getRow i) false semiring A B i else []
      let Z := masked_accum (M.getRow i) false accum r T
      if replace_flag then Z
      else masked_merge (M.getRow i) false r Z)
    (fun Cacc i => by (try dsimp only); split <;> exact Cacc.nrows_setRow ..)
    (fun Cacc i k => by
      (try dsimp only)
      cases replace_flag with
      | true =>
        simp only [if_true, LilSparseMatrix.getRow_setRow]
        split
        · rename_i h; rw [h.1]
        · rfl
      | false =>
        simp only [Bool.false_eq_true, if_false, LilSparseMatrix.getRow_setRow]
        split
        · rename_i h; rw [h.1]
        · rfl)]

theorem ABT_CompMask_NoAccum_kernel_nrows (C : LilSparseMatrix α) (M : LilSparseMatrix μ)
    (semiring : SemiringOps α) (A B : LilSparseMatrix α) (replace_flag : Bool) :
    (ABT_CompMask_NoAccum_kernel C M semiring A B replace_flag).nrows = C.nrows := by
  unfold ABT_CompMask_NoAccum_kernel
  exact range_foldl_nrows _
    (fun Cacc i => by (try dsimp only); split <;> exact Cacc.nrows_setRow ..) _ _

theorem ABT_CompMask_NoAccum_kernel_ncols (C : LilSparseMatrix α) (M : LilSparseMatrix μ)
    (semiring : SemiringOps α) (A B : LilSparseMatrix α) (replace_flag : Bool) :
    (ABT_CompMask_NoAccum_kernel C M semiring A B replace_flag).ncols = C.ncols := by
  unfold ABT_CompMask_NoAccum_kernel
  exact range_foldl_ncols _
    (fun Cacc i => by (try dsimp only); split <;> exact Cacc.ncols_setRow ..) _ _

theorem ABT_CompMask_NoAccum_kernel_getRow (C : LilSparseMatrix α) (M : LilSparseMatrix μ)
    (semiring : SemiringOps α) (A B : LilSparseMatrix α) (replace_flag : Bool) (k : Nat) :
    (ABT_CompMask_NoAccum_kernel C M semiring A B replace_flag).getRow k
      = if k < A.nrows ∧ k < C.nrows then
          (let T := if !(A.getRow k).isEmpty
                    then ABT_Masked_row (M.getRow k) true semiring A B k else []
           if replace_flag then T
           else masked_merge (M.getRow k) true (C.getRow k) T)
        else C.getRow k := by
  unfold ABT_CompMask_NoAccum_kernel
  rw [range_foldl_getRow _
    (fun i r =>
      let T := if !(A.getRow i).isEmpty
               then ABT_Masked_row (M.getRow i) true semiring A B i else []
      if replace_flag then T
      else masked_merge (M.getRow i) true r T)
    (fun Cacc i => by (try dsimp only); split <;> exact Cacc.nrows_setRow ..)
    (fun Cacc i k => by
      (try dsimp only)
      cases replace_flag with
      | true => simp [LilSparseMatrix.getRow_setRow]
      | false =>
        simp only [Bool.false_eq_true, if_false, LilSparseMatrix.getRow_setRow]
        split
        · rename_i h; rw [h.1]
        · rfl)]

theorem ABT_CompMask_Accum_kernel_nrows (C : LilSparseMatrix α) (M : LilSparseMatrix μ)
    (accum : α → α → α) (semiring : SemiringOps α) (A B : LilSparseMatrix α)
    (replace_flag : Bool) :
    (ABT_CompMask_Accum_kernel C M accum semiring A B replace_flag).nrows = C.nrows := by
  unfold ABT_CompMask_Accum_kernel
  exact range_foldl_nrows _
    (fun Cacc i => by (try dsimp only); split <;> exact Cacc.nrows_setRow ..) _ _

theorem ABT_CompMask_Accum_kernel_ncols (C : LilSparseMatrix α) (M : LilSparseMatrix μ)
    (accum : α → α → α) (semiring : SemiringOps α) (A B : LilSparseMatrix α)
    (replace_flag : Bool) :
    (ABT_CompMask_Accum_kernel C M accum semiring A B replace_flag).ncols = C.ncols := by
  unfold ABT_CompMask_Accum_kernel
  exact range_foldl_ncols _
    (fun Cacc i => by (try dsimp only); split <;> exact Cacc.ncols_setRow ..) _ _

theorem ABT_CompMask_Accum_kernel_getRow (C : LilSparseMatrix α) (M : LilSparseMatrix μ)
    (accum : α → α → α) (semiring : SemiringOps α) (A B : LilSparseMatrix α)
    (replace_flag : Bool) (k : Nat) :
    (ABT_CompMask_Accum_kernel C M accum semiring A B replace_flag).getRow k
      = if k < A.nrows ∧ k < C.nrows then
          (let T := if !(A.getRow k).isEmpty
                    then ABT_Masked_row (M.getRow k) true semiring A B k else []
           let Z := masked_accum (M.getRow k) true accum (C.getRow k) T
           if replace_flag then Z
           else masked_merge (M.getRow k) true (C.getRow k) Z)
        else C.getRow k := by
  unfold ABT_CompMask_Accum_kernel
  rw [range_foldl_getRow _
    (fun i r =>
      let T := if !(A.getRow i).isEmpty
               then ABT_Masked_row (M.getRow i) true semiring A B i else []
      let Z := masked_accum (M.getRow i) true accum r T
      if replace_flag then Z
      else masked_merge (M.getRow i) true r Z)
    (fun Cacc i => by (try dsimp only); split <;> exact Cacc.nrows_setRow ..)
    (fun Cacc i k => by
      (try dsimp only)
      cases replace_flag with
      | true =>
        simp only [if_true, LilSparseMatrix.getRow_setRow]
        split
        · rename_i h; rw [h.1]
        · rfl
      | false =>
        simp only [Bool.false_eq_true, if_false, LilSparseMatrix.getRow_setRow]
        split
        · rename_i h; rw [h.1]
        · rfl)]

/-! ## Characterization of the aliased-branch write-back loops -/

theorem wb_mergeRow_getRow (C Ctmp : LilSparseMatrix α) (accum : α → α → α) (k : Nat) :
    ((List.range C.nrows).foldl
        (fun Cacc i => Cacc.mergeRow i (Ctmp.getRow i) accum) C).getRow k
      = if k < C.nrows then unionWith accum (C.getRow k) (Ctmp.getRow k)
        else C.getRow k := by
  have h := range_foldl_getRow
    (fun Cacc i => Cacc.mergeRow i (Ctmp.getRow i) accum)
    (fun i r => unionWith accum r (Ctmp.getRow i))
    (fun Cacc i => Cacc.nrows_setRow ..)
    (fun Cacc i k => by
      simp only [LilSparseMatrix.mergeRow, LilSparseMatrix.getRow_setRow]
      split
      · rename_i h; rw [h.1]
      · rfl)
    C.nrows C k
  rw [h]
  simp only [and_self]

theorem wb_mergeRow_nrows (C Ctmp : LilSparseMatrix α) (accum : α → α → α) :
    ((List.range C.nrows).foldl
        (fun Cacc i => Cacc.mergeRow i (Ctmp.getRow i) accum) C).nrows = C.nrows :=
  range_foldl_nrows _ (fun Cacc i => Cacc.nrows_setRow ..) _ _

theorem wb_mergeRow_ncols (C Ctmp : LilSparseMatrix α) (accum : α → α → α) :
    ((List.range C.nrows).foldl
        (fun Cacc i => Cacc.mergeRow i (Ctmp.getRow i) accum) C).ncols = C.ncols :=
  range_foldl_ncols _ (fun Cacc i => Cacc.ncols_setRow ..) _ _

theorem wb_masked_merge_getRow (C : LilSparseMatrix α) (M : LilSparseMatrix μ)
    (comp : Bool) (Ctmp : LilSparseMatrix α) (k : Nat) :
    ((List.range C.nrows).foldl
        (fun Cacc i =>
          Cacc.setRow i (masked_merge (M.getRow i) comp (Cacc.getRow i) (Ctmp.getRow i))) C).getRow k
      = if k < C.nrows then masked_merge (M.getRow k) comp (C.getRow k) (Ctmp.getRow k)
        else C.getRow k := by
  rw [range_foldl_getRow _
    (fun i r => masked_merge (M.getRow i) comp r (Ctmp.getRow i))
    (fun Cacc i => Cacc.nrows_setRow ..)
    (fun Cacc i k => by
      simp only [LilSparseMatrix.getRow_setRow]
      split
      · rename_i h; rw [h.1]
      · rfl)]
  simp only [and_self]

theorem wb_masked_merge_nrows (C : LilSparseMatrix α) (M : LilSparseMatrix μ)
    (comp : Bool) (Ctmp : LilSparseMatrix α) :
    ((List.range C.nrows).foldl
        (fun Cacc i =>
          Cacc.setRow i (masked_merge (M.getRow i) comp (Cacc.getRow i) (Ctmp.getRow i))) C).nrows
      = C.nrows :=
  range_foldl_nrows _ (fun Cacc i => Cacc.nrows_setRow ..) _ _

theorem wb_masked_merge_ncols (C : LilSparseMatrix α) (M : LilSparseMatrix μ)
    (comp : Bool) (Ctmp : LilSparseMatrix α) :
    ((List.range C.nrows).foldl
        (fun Cacc i =>
          Cacc.setRow i (masked_merge (M.getRow i) comp (Cacc.getRow i) (Ctmp.getRow i))) C).ncols
      = C.ncols :=
  range_foldl_ncols _ (fun Cacc i => Cacc.ncols_setRow ..) _ _

theorem wb_masked_accum_getRow (C : LilSparseMatrix α) (M : LilSparseMatrix μ)
    (comp : Bool) (accum : α → α → α) (Ctmp : LilSparseMatrix α)
    (replace_flag : Bool) (k : Nat) :
    ((List.range C.nrows).foldl
        (fun Cacc i =>
          let Z_row := masked_accum (M.getRow i) comp accum (Cacc.getRow i) (Ctmp.getRow i)
          if replace_flag then Cacc.setRow i Z_row
          else Cacc.setRow i (masked_merge (M.getRow i) comp (Cacc.getRow i) Z_row)) C).getRow k
      = if k < C.nrows then
          (let Z := masked_accum (M.getRow k) comp accum (C.getRow k) (Ctmp.getRow k)
           if replace_flag then Z
           else masked_merge (M.getRow k) comp (C.getRow k) Z)
        else C.getRow k := by
  rw [range_foldl_getRow _
    (fun i r =>
      let Z := masked_accum (M.getRow i) comp accum r (Ctmp.getRow i)
      if replace_flag then Z
      else masked_merge (M.getRow i) comp r Z)
    (fun Cacc i => by (try dsimp only); split <;> exact Cacc.nrows_setRow ..)
    (fun Cacc i k => by
      (try dsimp only)
      cases replace_flag with
      | true =>
        simp only [if_true, LilSparseMatrix.getRow_setRow]
        split
        · rename_i h; rw [h.1]
        · rfl
      | false =>
        simp only [Bool.false_eq_true, if_false, LilSparseMatrix.getRow_setRow]
        split
        · rename_i h; rw [h.1]
        · rfl)]
  simp only [and_self]

theorem wb_masked_accum_nrows (C : LilSparseMatrix α) (M : LilSparseMatrix μ)
    (comp : Bool) (accum : α → α → α) (Ctmp : LilSparseMatrix α) (replace_flag : Bool) :
    ((List.range C.nrows).foldl
        (fun Cacc i =>
          let Z_row := masked_accum (M.getRow i) comp accum (Cacc.getRow i) (Ctmp.getRow i)
          if replace_flag then Cacc.setRow i Z_row
          else Cacc.setRow i (masked_merge (M.getRow i) comp (Cacc.getRow i) Z_row)) C).nrows
      = C.nrows :=
  range_foldl_nrows _
    (fun Cacc i => by (try dsimp only); split <;> exact Cacc.nrows_setRow ..) _ _

theorem wb_masked_accum_ncols (C : LilSparseMatrix α) (M : LilSparseMatrix μ)
    (comp : Bool) (accum : α → α → α) (Ctmp : LilSparseMatrix α) (replace_flag : Bool) :
    ((List.range C.nrows).foldl
        (fun Cacc i =>
          let Z_row := masked_accum (M.getRow i) comp accum (Cacc.getRow i) (Ctmp.getRow i)
          if replace_flag then Cacc.setRow i Z_row
          else Cacc.setRow i (masked_merge (M.getRow i) comp (Cacc.getRow i) Z_row)) C).ncols
      = C.ncols :=
  range_foldl_ncols _
    (fun Cacc i => by (try dsimp only); split <;> exact Cacc.ncols_setRow ..) _ _

/-! ## Dimension preservation of the six entry points -/

theorem sparse_mxm_NoMask_NoAccum_ABT_dims (C : LilSparseMatrix α)
    (semiring : SemiringOps α) (A B : LilSparseMatrix α) (aliased : Bool) :
    (sparse_mxm_NoMask_NoAccum_ABT C semiring A B aliased).nrows = C.nrows
    ∧ (sparse_mxm_NoMask_NoAccum_ABT C semiring A B aliased).ncols = C.ncols := by
  unfold sparse_mxm_NoMask_NoAccum_ABT
  split
  · exact ⟨C.nrows_clear, C.ncols_clear⟩
  · split
    · constructor
      · rw [ABT_NoMask_NoAccum_kernel_nrows, LilSparseMatrix.nrows_ofDims]
      · rw [ABT_NoMask_NoAccum_kernel_ncols, LilSparseMatrix.ncols_ofDims]
    · exact ⟨ABT_NoMask_NoAccum_kernel_nrows .., ABT_NoMask_NoAccum_kernel_ncols ..⟩

theorem sparse_mxm_NoMask_Accum_ABT_dims (C : LilSparseMatrix α) (accum : α → α → α)
    (semiring : SemiringOps α) (A B : LilSparseMatrix α) (aliased : Bool) :
    (sparse_mxm_NoMask_Accum_ABT C accum semiring A B aliased).nrows = C.nrows
    ∧ (sparse_mxm_NoMask_Accum_ABT C accum semiring A B aliased).ncols = C.ncols := by
  unfold sparse_mxm_NoMask_Accum_ABT
  split
  · exact ⟨rfl, rfl⟩
  · split
    · exact ⟨wb_mergeRow_nrows .., wb_mergeRow_ncols ..⟩
    · exact ⟨ABT_NoMask_Accum_kernel_nrows .., ABT_NoMask_Accum_kernel_ncols ..⟩

theorem sparse_mxm_Mask_NoAccum_ABT_dims (C : LilSparseMatrix α) (M : LilSparseMatrix μ)
    (semiring : SemiringOps α) (A B : LilSparseMatrix α)
    (replace_flag aliased : Bool) :
    (sparse_mxm_Mask_NoAccum_ABT C M semiring A B replace_flag aliased).nrows = C.nrows
    ∧ (sparse_mxm_Mask_NoAccum_ABT C M semiring A B replace_flag aliased).ncols = C.ncols := by
  unfold sparse_mxm_Mask_NoAccum_ABT
  split
  · exact ⟨C.nrows_clear, C.ncols_clear⟩
  · split
    · exact ⟨rfl, rfl⟩
    · split
      · split
        · constructor
          · rw [ABT_Mask_NoAccum_kernel_nrows, LilSparseMatrix.nrows_ofDims]
          · rw [ABT_Mask_NoAccum_kernel_ncols, LilSparseMatrix.ncols_ofDims]
        · exact ⟨wb_masked_merge_nrows .., wb_masked_merge_ncols ..⟩
      · exact ⟨ABT_Mask_NoAccum_kernel_nrows .., ABT_Mask_NoAccum_kernel_ncols ..⟩

theorem sparse_mxm_Mask_Accum_ABT_dims (C : LilSparseMatrix α) (M : LilSparseMatrix μ)
    (accum : α → α → α) (semiring : SemiringOps α) (A B : LilSparseMatrix α)
    (replace_flag aliased : Bool) :
    (sparse_mxm_Mask_Accum_ABT C M accum semiring A B replace_flag aliased).nrows = C.nrows
    ∧ (sparse_mxm_Mask_Accum_ABT C M accum semiring A B replace_flag aliased).ncols = C.ncols := by
  unfold sparse_mxm_Mask_Accum_ABT
  split
  · exact ⟨C.nrows_clear, C.ncols_clear⟩
  · split
    · exact ⟨rfl, rfl⟩
    · split
      · exact ⟨wb_masked_accum_nrows .., wb_masked_accum_ncols ..⟩
      · exact ⟨ABT_Mask_Accum_kernel_nrows .., ABT_Mask_Accum_kernel_ncols ..⟩

theorem sparse_mxm_CompMask_NoAccum_ABT_dims (C : LilSparseMatrix α) (M : LilSparseMatrix μ)
    (semiring : SemiringOps α) (A B : LilSparseMatrix α)
    (replace_flag aliased : Bool) :
    (sparse_mxm_CompMask_NoAccum_ABT C M semiring A B replace_flag aliased).nrows = C.nrows
    ∧ (sparse_mxm_CompMask_NoAccum_ABT C M semiring A B replace_flag aliased).ncols = C.ncols := by
  unfold sparse_mxm_CompMask_NoAccum_ABT
  split
  · exact ⟨C.nrows_clear, C.ncols_clear⟩
  · split
    · split
      · constructor
        · rw [ABT_CompMask_NoAccum_kernel_nrows, LilSparseMatrix.nrows_ofDims]
        · rw [ABT_CompMask_NoAccum_kernel_ncols, LilSparseMatrix.ncols_ofDims]
      · exact ⟨wb_masked_merge_nrows .., wb_masked_merge_ncols ..⟩
    · exact ⟨ABT_CompMask_NoAccum_kernel_nrows .., ABT_CompMask_NoAccum_kernel_ncols ..⟩

theorem sparse_mxm_CompMask_Accum_ABT_dims (C : LilSparseMatrix α) (M : LilSparseMatrix μ)
    (accum : α → α → α) (semiring : SemiringOps α) (A B : LilSparseMatrix α)
    (replace_flag aliased : Bool) :
    (sparse_mxm_CompMask_Accum_ABT C M accum semiring A B replace_flag aliased).nrows = C.nrows
    ∧ (sparse_mxm_CompMask_Accum_ABT C M accum semiring A B replace_flag aliased).ncols = C.ncols := by
  unfold sparse_mxm_CompMask_Accum_ABT
  split
  · exact ⟨wb_masked_accum_nrows .., wb_masked_accum_ncols ..⟩
  · exact ⟨ABT_CompMask_Accum_kernel_nrows .., ABT_CompMask_Accum_kernel_ncols ..⟩

/-! ## Small algebraic facts about the spec-modelled primitives -/

theorem LilSparseMatrix.clear_clear (m : LilSparseMatrix α) : m.clear.clear = m.clear := by
  simp [LilSparseMatrix.clear]

theorem masked_merge_nil_false (ex nw : RowT α) :
    masked_merge (μ := μ) [] false ex nw = ex := by
  unfold masked_merge mergeRows
  simp [maskTest_nil, unionWith_nil_right]

theorem masked_merge_nil_true (ex nw : RowT α) :
    masked_merge (μ := μ) [] true ex nw = nw := by
  unfold masked_merge mergeRows
  simp [maskTest_nil, unionWith_nil_left]

theorem masked_accum_nil_true (accum : α → α → α) (ex nw : RowT α) :
    masked_accum (μ := μ) [] true accum ex nw = unionWith accum ex nw := by
  unfold masked_accum
  simp [maskTest_nil]

theorem ABT_NoMask_NoAccum_kernel_idem (C : LilSparseMatrix α)
    (semiring : SemiringOps α) (A B : LilSparseMatrix α) :
    ABT_NoMask_NoAccum_kernel (ABT_NoMask_NoAccum_kernel C semiring A B) semiring A B
      = ABT_NoMask_NoAccum_kernel C semiring A B := by
  apply LilSparseMatrix.ext_getRow
  · simp [ABT_NoMask_NoAccum_kernel_ncols]
  · simp [ABT_NoMask_NoAccum_kernel_nrows]
  · intro k
    simp only [ABT_NoMask_NoAccum_kernel_getRow, ABT_NoMask_NoAccum_kernel_nrows]
    by_cases h1 : k < A.nrows ∧ k < C.nrows
    · by_cases hA : (A.getRow k).isEmpty <;> simp [h1, hA]
    · simp [h1]

theorem dot_nil_left (semiring : SemiringOps α) (b : RowT α) :
    dot semiring [] b = none := rfl

theorem ABT_Masked_row_nil_mask (semiring : SemiringOps α) (A B : LilSparseMatrix α)
    (i : Nat) :
    ABT_Masked_row (μ := μ) [] true semiring A B i = ABT_NoMask_row semiring A B i := by
  unfold ABT_Masked_row ABT_NoMask_row
  apply List.filterMap_congr
  intro j _
  by_cases hB : (B.getRow j).isEmpty <;>
    simp [hB, advance_and_check_mask, rowHas]

theorem ABT_NoMask_row_of_B_empty (semiring : SemiringOps α) (A B : LilSparseMatrix α)
    (i : Nat) (h : B.nvals = 0) : ABT_NoMask_row semiring A B i = [] := by
  unfold ABT_NoMask_row
  rw [List.filterMap_eq_nil_iff]
  intro j _
  simp [B.getRow_eq_nil_of_nvals h j]

theorem ABT_NoMask_row_of_A_row_empty (semiring : SemiringOps α) (A B : LilSparseMatrix α)
    (i : Nat) (hA : A.getRow i = []) : ABT_NoMask_row semiring A B i = [] := by
  unfold ABT_NoMask_row
  rw [List.filterMap_eq_nil_iff]
  intro j _
  by_cases hB : (B.getRow j).isEmpty
  · simp [hB]
  · simp [hB, hA, dot_nil_left]

theorem comp_kernel_eq_nomask_kernel_on_empty_base (nr nc : Nat) (M : LilSparseMatrix μ)
    (semiring : SemiringOps α) (A B : LilSparseMatrix α)
    (hrow : ∀ i, M.getRow i = []) :
    ABT_CompMask_NoAccum_kernel (LilSparseMatrix.ofDims nr nc) M semiring A B true
      = ABT_NoMask_NoAccum_kernel (LilSparseMatrix.ofDims nr nc) semiring A B := by
  apply LilSparseMatrix.ext_getRow
  · simp [ABT_CompMask_NoAccum_kernel_ncols, ABT_NoMask_NoAccum_kernel_ncols]
  · simp [ABT_CompMask_NoAccum_kernel_nrows, ABT_NoMask_NoAccum_kernel_nrows]
  · intro k
    rw [ABT_CompMask_NoAccum_kernel_getRow, ABT_NoMask_NoAccum_kernel_getRow]
    by_cases h1 : k < A.nrows ∧ k < (LilSparseMatrix.ofDims (α := α) nr nc).nrows
    · by_cases hA : (A.getRow k).isEmpty <;>
        simp [h1, hA, hrow k, ABT_Masked_row_nil_mask, LilSparseMatrix.getRow_ofDims]
    · simp [h1]

/-! ## Complement-transfer lemmas for C3 -/

theorem LilSparseMatrix.inBounds_getRow {m : LilSparseMatrix α} (h : m.InBounds)
    (i : Nat) : ∀ p ∈ m.getRow i, p.1 < m.ncols := by
  intro p hp
  rcases Nat.lt_or_ge i m.nrows with hi | hi
  · have hi2 : i < m.rows.length := hi
    have he : m.getRow i = m.rows[i] := by
      simp [LilSparseMatrix.getRow, List.getD_eq_getElem?_getD,
        List.getElem?_eq_getElem hi]
    rw [he] at hp
    exact h _ (List.getElem_mem _) p hp
  · rw [m.getRow_eq_nil_of_le i hi] at hp
    cases hp

theorem complementM_nrows (v : μ) (M : LilSparseMatrix μ) :
    (complementM v M).nrows = M.nrows := by
  simp [complementM, LilSparseMatrix.nrows]

theorem complementM_getRow (v : μ) (M : LilSparseMatrix μ) (i : Nat) (hi : i < M.nrows) :
    (complementM v M).getRow i = complementRow M.ncols v (M.getRow i) := by
  unfold complementM LilSparseMatrix.getRow
  dsimp only
  rw [List.getD_eq_getElem?_getD, List.getD_eq_getElem?_getD, List.getElem?_map,
      List.getElem?_eq_getElem hi]
  rfl

theorem complementM_nvals_zero (v : μ) (M : LilSparseMatrix μ)
    (h : (complementM v M).nvals = 0) :
    ∀ i, i < M.nrows → ∀ j, j < M.ncols → rowHas (M.getRow i) j = true := by
  intro i hi j hj
  have hr := (complementM v M).getRow_eq_nil_of_nvals h i
  rw [complementM_getRow v M i hi] at hr
  exact complementRow_eq_nil_iff.mp hr j hj

theorem mem_ABT_Masked_row_lt {m : RowT μ} {comp : Bool} {semiring : SemiringOps α}
    {A B : LilSparseMatrix α} {i : Nat} {p : Nat × α}
    (hp : p ∈ ABT_Masked_row m comp semiring A B i) : p.1 < B.nrows := by
  unfold ABT_Masked_row at hp
  obtain ⟨j, hj, hf⟩ := List.mem_filterMap.mp hp
  split at hf
  · cases hf
  · split at hf
    · cases hf
    · obtain ⟨t, _, ht⟩ := Option.map_eq_some'.mp hf
      have : p.1 = j := by rw [← ht]
      rw [this]
      exact List.mem_range.mp hj

theorem mem_masked_accum_lt {nc : Nat} {m : RowT μ} {comp : Bool} {accum : α → α → α}
    {ex nw : RowT α} {p : Nat × α}
    (hex : ∀ q ∈ ex, q.1 < nc) (hnw : ∀ q ∈ nw, q.1 < nc)
    (hp : p ∈ masked_accum m comp accum ex nw) : p.1 < nc := by
  unfold masked_accum at hp
  have hu := (List.mem_filter.mp hp).1
  rcases mem_unionWith_imp hu with ⟨a, ha⟩ | ⟨b, hb⟩
  exacts [hex (p.1, a) ha, hnw (p.1, b) hb]

theorem masked_merge_complement (nc : Nat) (v : μ) (m : RowT μ) (ex nw : RowT α)
    (hex : ∀ p ∈ ex, p.1 < nc) (hnw : ∀ p ∈ nw, p.1 < nc) :
    masked_merge (complementRow nc v m) false ex nw = masked_merge m true ex nw := by
  unfold masked_merge
  congr 1
  · apply List.filter_congr
    intro p hp
    rw [maskTest_complementRow v m (hex p hp)]
  · apply List.filter_congr
    intro p hp
    rw [maskTest_complementRow v m (hnw p hp)]

theorem masked_accum_complement (nc : Nat) (v : μ) (m : RowT μ) (accum : α → α → α)
    (ex nw : RowT α) (hex : ∀ p ∈ ex, p.1 < nc) (hnw : ∀ p ∈ nw, p.1 < nc) :
    masked_accum (complementRow nc v m) false accum ex nw
      = masked_accum m true accum ex nw := by
  unfold masked_accum
  apply List.filter_congr
  intro p hp
  have hlt : p.1 < nc := by
    rcases mem_unionWith_imp hp with ⟨a, ha⟩ | ⟨b, hb⟩
    exacts [hex (p.1, a) ha, hnw (p.1, b) hb]
  rw [maskTest_complementRow v m hlt]

theorem masked_merge_full_true (nc : Nat) (m : RowT μ) (ex nw : RowT α)
    (hfull : ∀ j, j < nc → rowHas m j = true)
    (hex : ∀ p ∈ ex, p.1 < nc) (hnw : ∀ p ∈ nw, p.1 < nc) :
    masked_merge m true ex nw = ex := by
  unfold masked_merge mergeRows
  have h1 : ex.filter (fun p => !(maskTest m true p.1)) = ex := by
    rw [List.filter_eq_self]
    intro p hp
    simp [maskTest, hfull _ (hex p hp)]
  have h2 : nw.filter (fun p => maskTest m true p.1) = [] := by
    rw [List.filter_eq_nil_iff]
    intro p hp
    simp [maskTest, hfull _ (hnw p hp)]
  rw [h1, h2, unionWith_nil_right]

theorem masked_accum_full_true (nc : Nat) (m : RowT μ) (accum : α → α → α)
    (ex nw : RowT α) (hfull : ∀ j, j < nc → rowHas m j = true)
    (hex : ∀ p ∈ ex, p.1 < nc) (hnw : ∀ p ∈ nw, p.1 < nc) :
    masked_accum m true accum ex nw = [] := by
  unfold masked_accum
  rw [List.filter_eq_nil_iff]
  intro p hp
  have hlt : p.1 < nc := by
    rcases mem_unionWith_imp hp with ⟨a, ha⟩ | ⟨b, hb⟩
    exacts [hex (p.1, a) ha, hnw (p.1, b) hb]
  simp [maskTest, hfull _ hlt]

theorem ABT_Masked_row_complement (nc : Nat) (v : μ) (m : RowT μ)
    (semiring : SemiringOps α) (A B : LilSparseMatrix α) (i : Nat)
    (hB : B.nrows ≤ nc) :
    ABT_Masked_row (complementRow nc v m) false semiring A B i
      = ABT_Masked_row m true semiring A B i := by
  unfold ABT_Masked_row
  apply List.filterMap_congr
  intro j hj
  have hjnc : j < nc := Nat.lt_of_lt_of_le (List.mem_range.mp hj) hB
  by_cases h1 : (B.getRow j).isEmpty
  · simp [h1]
  · simp only [h1, Bool.false_eq_true, if_false]
    have hadv : advance_and_check_mask (complementRow nc v m) j
        = !(advance_and_check_mask m j) := by
      simp [advance_and_check_mask, rowHas_complementRow, hjnc]
    rw [hadv]
    cases advance_and_check_mask m j <;> simp

theorem ABT_Masked_row_full_mask (nc : Nat) (m : RowT μ) (semiring : SemiringOps α)
    (A B : LilSparseMatrix α) (i : Nat) (hB : B.nrows ≤ nc)
    (hfull : ∀ j, j < nc → rowHas m j = true) :
    ABT_Masked_row m true semiring A B i = [] := by
  unfold ABT_Masked_row
  rw [List.filterMap_eq_nil_iff]
  intro j hj
  have := hfull j (Nat.lt_of_lt_of_le (List.mem_range.mp hj) hB)
  by_cases h1 : (B.getRow j).isEmpty <;>
    simp [h1, advance_and_check_mask, this]

theorem LilSparseMatrix.clear_ofDims (nr nc : Nat) :
    (LilSparseMatrix.ofDims (α := α) nr nc).clear = LilSparseMatrix.ofDims nr nc := by
  simp [LilSparseMatrix.clear, LilSparseMatrix.ofDims]

theorem comp_kernel_ofDims_getRow (nr nc : Nat) (M : LilSparseMatrix μ)
    (semiring : SemiringOps α) (A B : LilSparseMatrix α) (k : Nat) :
    (ABT_CompMask_NoAccum_kernel (LilSparseMatrix.ofDims nr nc) M semiring A B true).getRow k
      = if k < A.nrows ∧ k < nr then
          (if (A.getRow k).isEmpty then []
           else ABT_Masked_row (M.getRow k) true semiring A B k)
        else [] := by
  rw [ABT_CompMask_NoAccum_kernel_getRow]
  simp only [LilSparseMatrix.nrows_ofDims, LilSparseMatrix.getRow_ofDims]
  by_cases h1 : k < A.nrows ∧ k < nr
  · simp only [h1, if_true]
    by_cases hA : (A.getRow k).isEmpty <;> simp [hA]
  · simp [h1]

theorem mem_comp_kernel_ofDims_lt {nr nc : Nat} {M : LilSparseMatrix μ}
    {semiring : SemiringOps α} {A B : LilSparseMatrix α} {k : Nat} {p : Nat × α}
    (hp : p ∈ (ABT_CompMask_NoAccum_kernel (LilSparseMatrix.ofDims nr nc) M
                semiring A B true).getRow k) :
    p.1 < B.nrows := by
  rw [comp_kernel_ofDims_getRow] at hp
  split at hp
  · split at hp
    · cases hp
    · exact mem_ABT_Masked_row_lt hp
  · cases hp

theorem ABT_CompMask_NoAccum_kernel_complement (C : LilSparseMatrix α)
    (M : LilSparseMatrix μ) (v : μ) (semiring : SemiringOps α)
    (A B : LilSparseMatrix α) (replace_flag : Bool)
    (hMr : M.nrows = C.nrows) (hMcB : B.nrows ≤ M.ncols)
    (hCk : ∀ k, ∀ p ∈ C.getRow k, p.1 < M.ncols) :
    ABT_CompMask_NoAccum_kernel C M semiring A B replace_flag
      = ABT_Mask_NoAccum_kernel C (complementM v M) semiring A B replace_flag := by
  apply LilSparseMatrix.ext_getRow
  · simp [ABT_CompMask_NoAccum_kernel_ncols, ABT_Mask_NoAccum_kernel_ncols]
  · simp [ABT_CompMask_NoAccum_kernel_nrows, ABT_Mask_NoAccum_kernel_nrows]
  intro k
  rw [ABT_CompMask_NoAccum_kernel_getRow, ABT_Mask_NoAccum_kernel_getRow]
  by_cases h1 : k < A.nrows ∧ k < C.nrows
  · have hkM : k < M.nrows := by omega
    rw [complementM_getRow v M k hkM]
    simp only [h1, if_true]
    have hT : (if !(A.getRow k).isEmpty
                  && !(complementRow M.ncols v (M.getRow k)).isEmpty
               then ABT_Masked_row (complementRow M.ncols v (M.getRow k)) false
                      semiring A B k
               else [])
            = (if !(A.getRow k).isEmpty
               then ABT_Masked_row (M.getRow k) true semiring A B k
               else []) := by
      by_cases hA : (A.getRow k).isEmpty
      · simp [hA]
      · by_cases hfull : complementRow M.ncols v (M.getRow k) = []
        · rw [hfull,
            ABT_Masked_row_full_mask M.ncols (M.getRow k) semiring A B k hMcB
              (complementRow_eq_nil_iff.mp hfull)]
          simp [hA]
        · have hne : (complementRow M.ncols v (M.getRow k)).isEmpty = false := by
            rw [Bool.eq_false_iff]
            intro hcon
            exact hfull (List.isEmpty_iff.mp hcon)
          rw [ABT_Masked_row_complement M.ncols v (M.getRow k) semiring A B k hMcB]
          simp [hA, hne]
    rw [hT]
    cases replace_flag with
    | true => simp
    | false =>
      simp only [Bool.false_eq_true, if_false]
      have hTlt : ∀ p ∈ (if !(A.getRow k).isEmpty
                         then ABT_Masked_row (M.getRow k) true semiring A B k
                         else []), p.1 < M.ncols := by
        intro p hp
        split at hp
        · exact Nat.lt_of_lt_of_le (mem_ABT_Masked_row_lt hp) hMcB
        · cases hp
      rw [masked_merge_complement M.ncols v (M.getRow k) _ _ (hCk k) hTlt]
  · simp [h1]

theorem ABT_CompMask_Accum_kernel_complement (C : LilSparseMatrix α)
    (M : LilSparseMatrix μ) (v : μ) (accum : α → α → α) (semiring : SemiringOps α)
    (A B : LilSparseMatrix α) (replace_flag : Bool)
    (hMr : M.nrows = C.nrows) (hMcB : B.nrows ≤ M.ncols)
    (hCk : ∀ k, ∀ p ∈ C.getRow k, p.1 < M.ncols) :
    ABT_CompMask_Accum_kernel C M accum semiring A B replace_flag
      = ABT_Mask_Accum_kernel C (complementM v M) accum semiring A B replace_flag := by
  apply LilSparseMatrix.ext_getRow
  · simp [ABT_CompMask_Accum_kernel_ncols, ABT_Mask_Accum_kernel_ncols]
  · simp [ABT_CompMask_Accum_kernel_nrows, ABT_Mask_Accum_kernel_nrows]
  intro k
  rw [ABT_CompMask_Accum_kernel_getRow, ABT_Mask_Accum_kernel_getRow]
  by_cases h1 : k < A.nrows ∧ k < C.nrows
  · have hkM : k < M.nrows := by omega
    rw [complementM_getRow v M k hkM]
    simp only [h1, if_true]
    have hT : (if !(A.getRow k).isEmpty
                  && !(complementRow M.ncols v (M.getRow k)).isEmpty
               then ABT_Masked_row (complementRow M.ncols v (M.getRow k)) false
                      semiring A B k
               else [])
            = (if !(A.getRow k).isEmpty
               then ABT_Masked_row (M.getRow k) true semiring A B k
               else []) := by
      by_cases hA : (A.getRow k).isEmpty
      · simp [hA]
      · by_cases hfull : complementRow M.ncols v (M.getRow k) = []
        · rw [hfull,
            ABT_Masked_row_full_mask M.ncols (M.getRow k) semiring A B k hMcB
              (complementRow_eq_nil_iff.mp hfull)]
          simp [hA]
        · have hne : (complementRow M.ncols v (M.getRow k)).isEmpty = false := by
            rw [Bool.eq_false_iff]
            intro hcon
            exact hfull (List.isEmpty_iff.mp hcon)
          rw [ABT_Masked_row_complement M.ncols v (M.getRow k) semiring A B k hMcB]
          simp [hA, hne]
    rw [hT]
    have hTlt : ∀ p ∈ (if !(A.getRow k).isEmpty
                       then ABT_Masked_row (M.getRow k) true semiring A B k
                       else []), p.1 < M.ncols := by
      intro p hp
      split at hp
      · exact Nat.lt_of_lt_of_le (mem_ABT_Masked_row_lt hp) hMcB
      · cases hp
    rw [masked_accum_complement M.ncols v (M.getRow k) accum _ _ (hCk k) hTlt]
    cases replace_flag with
    | true => simp
    | false =>
      simp only [Bool.false_eq_true, if_false]
      have hZlt : ∀ p ∈ masked_accum (M.getRow k) true accum (C.getRow k)
                       (if !(A.getRow k).isEmpty
                        then ABT_Masked_row (M.getRow k) true semiring A B k
                        else []), p.1 < M.ncols :=
        fun p hp => mem_masked_accum_lt (hCk k) hTlt hp
      rw [masked_merge_complement M.ncols v (M.getRow k) _ _ (hCk k) hZlt]
  · simp [h1]

theorem ABT_CompMask_NoAccum_kernel_getRow_replace (C : LilSparseMatrix α)
    (M : LilSparseMatrix μ) (semiring : SemiringOps α) (A B : LilSparseMatrix α)
    (k : Nat) :
    (ABT_CompMask_NoAccum_kernel C M semiring A B true).getRow k
      = if k < A.nrows ∧ k < C.nrows then
          (if (A.getRow k).isEmpty then []
           else ABT_Masked_row (M.getRow k) true semiring A B k)
        else C.getRow k := by
  rw [ABT_CompMask_NoAccum_kernel_getRow]
  by_cases h1 : k < A.nrows ∧ k < C.nrows
  · simp only [h1, if_true]
    by_cases hA : (A.getRow k).isEmpty <;> simp [hA]
  · simp [h1]

theorem ABT_CompMask_NoAccum_kernel_getRow_merge (C : LilSparseMatrix α)
    (M : LilSparseMatrix μ) (semiring : SemiringOps α) (A B : LilSparseMatrix α)
    (k : Nat) :
    (ABT_CompMask_NoAccum_kernel C M semiring A B false).getRow k
      = if k < A.nrows ∧ k < C.nrows then
          masked_merge (M.getRow k) true (C.getRow k)
            (if (A.getRow k).isEmpty then []
             else ABT_Masked_row (M.getRow k) true semiring A B k)
        else C.getRow k := by
  rw [ABT_CompMask_NoAccum_kernel_getRow]
  by_cases h1 : k < A.nrows ∧ k < C.nrows
  · simp only [h1, if_true]
    by_cases hA : (A.getRow k).isEmpty <;> simp [hA]
  · simp [h1]

theorem ABT_CompMask_Accum_kernel_getRow_replace (C : LilSparseMatrix α)
    (M : LilSparseMatrix μ) (accum : α → α → α) (semiring : SemiringOps α)
    (A B : LilSparseMatrix α) (k : Nat) :
    (ABT_CompMask_Accum_kernel C M accum semiring A B true).getRow k
      = if k < A.nrows ∧ k < C.nrows then
          masked_accum (M.getRow k) true accum (C.getRow k)
            (if (A.getRow k).isEmpty then []
             else ABT_Masked_row (M.getRow k) true semiring A B k)
        else C.getRow k := by
  rw [ABT_CompMask_Accum_kernel_getRow]
  by_cases h1 : k < A.nrows ∧ k < C.nrows
  · simp only [h1, if_true]
    by_cases hA : (A.getRow k).isEmpty <;> simp [hA]
  · simp [h1]

theorem ABT_CompMask_Accum_kernel_getRow_merge (C : LilSparseMatrix α)
    (M : LilSparseMatrix μ) (accum : α → α → α) (semiring : SemiringOps α)
    (A B : LilSparseMatrix α) (k : Nat) :
    (ABT_CompMask_Accum_kernel C M accum semiring A B false).getRow k
      = if k < A.nrows ∧ k < C.nrows then
          masked_merge (M.getRow k) true (C.getRow k)
            (masked_accum (M.getRow k) true accum (C.getRow k)
              (if (A.getRow k).isEmpty then []
               else ABT_Masked_row (M.getRow k) true semiring A B k))
        else C.getRow k := by
  rw [ABT_CompMask_Accum_kernel_getRow]
  by_cases h1 : k < A.nrows ∧ k < C.nrows
  · simp only [h1, if_true]
    by_cases hA : (A.getRow k).isEmpty <;> simp [hA]
  · simp [h1]

theorem wb_masked_accum_getRow_replace (C : LilSparseMatrix α) (M : LilSparseMatrix μ)
    (comp : Bool) (accum : α → α → α) (Ctmp : LilSparseMatrix α) (k : Nat) :
    ((List.range C.nrows).foldl
        (fun Cacc i =>
          let Z_row := masked_accum (M.getRow i) comp accum (Cacc.getRow i) (Ctmp.getRow i)
          if true then Cacc.setRow i Z_row
          else Cacc.setRow i (masked_merge (M.getRow i) comp (Cacc.getRow i) Z_row)) C).getRow k
      = if k < C.nrows then
          masked_accum (M.getRow k) comp accum (C.getRow k) (Ctmp.getRow k)
        else C.getRow k := by
  rw [wb_masked_accum_getRow]
  by_cases hk : k < C.nrows <;> simp [hk]

theorem wb_masked_accum_getRow_merge (C : LilSparseMatrix α) (M : LilSparseMatrix μ)
    (comp : Bool) (accum : α → α → α) (Ctmp : LilSparseMatrix α) (k : Nat) :
    ((List.range C.nrows).foldl
        (fun Cacc i =>
          let Z_row := masked_accum (M.getRow i) comp accum (Cacc.getRow i) (Ctmp.getRow i)
          if false then Cacc.setRow i Z_row
          else Cacc.setRow i (masked_merge (M.getRow i) comp (Cacc.getRow i) Z_row)) C).getRow k
      = if k < C.nrows then
          masked_merge (M.getRow k) comp (C.getRow k)
            (masked_accum (M.getRow k) comp accum (C.getRow k) (Ctmp.getRow k))
        else C.getRow k := by
  rw [wb_masked_accum_getRow]
  by_cases hk : k < C.nrows <;> simp [hk]

theorem ABT_CompMask_NoAccum_kernel_full_replace (C : LilSparseMatrix α)
    (M : LilSparseMatrix μ) (semiring : SemiringOps α) (A B : LilSparseMatrix α)
    (hCA : C.nrows = A.nrows) (hMr : M.nrows = C.nrows) (hMcB : B.nrows ≤ M.ncols)
    (hfull : ∀ i, i < M.nrows → ∀ j, j < M.ncols → rowHas (M.getRow i) j = true) :
    ABT_CompMask_NoAccum_kernel C M semiring A B true = C.clear := by
  apply LilSparseMatrix.ext_getRow
  · simp [ABT_CompMask_NoAccum_kernel_ncols, LilSparseMatrix.ncols_clear]
  · simp [ABT_CompMask_NoAccum_kernel_nrows, LilSparseMatrix.nrows_clear]
  intro k
  rw [ABT_CompMask_NoAccum_kernel_getRow_replace, LilSparseMatrix.getRow_clear]
  by_cases h1 : k < A.nrows ∧ k < C.nrows
  · rw [if_pos h1,
      ABT_Masked_row_full_mask M.ncols (M.getRow k) semiring A B k hMcB
        (hfull k (by omega))]
    simp
  · rw [if_neg h1]
    exact C.getRow_eq_nil_of_le k (by omega)

theorem ABT_CompMask_NoAccum_kernel_full_merge (C : LilSparseMatrix α)
    (M : LilSparseMatrix μ) (semiring : SemiringOps α) (A B : LilSparseMatrix α)
    (hMr : M.nrows = C.nrows) (hMcB : B.nrows ≤ M.ncols)
    (hCk : ∀ k, ∀ p ∈ C.getRow k, p.1 < M.ncols)
    (hfull : ∀ i, i < M.nrows → ∀ j, j < M.ncols → rowHas (M.getRow i) j = true) :
    ABT_CompMask_NoAccum_kernel C M semiring A B false = C := by
  apply LilSparseMatrix.ext_getRow
  · simp [ABT_CompMask_NoAccum_kernel_ncols]
  · simp [ABT_CompMask_NoAccum_kernel_nrows]
  intro k
  rw [ABT_CompMask_NoAccum_kernel_getRow_merge]
  by_cases h1 : k < A.nrows ∧ k < C.nrows
  · rw [if_pos h1]
    apply masked_merge_full_true M.ncols (M.getRow k) _ _ (hfull k (by omega)) (hCk k)
    intro p hp
    split at hp
    · cases hp
    · exact Nat.lt_of_lt_of_le (mem_ABT_Masked_row_lt hp) hMcB
  · rw [if_neg h1]

theorem ABT_CompMask_Accum_kernel_full_replace (C : LilSparseMatrix α)
    (M : LilSparseMatrix μ) (accum : α → α → α) (semiring : SemiringOps α)
    (A B : LilSparseMatrix α)
    (hCA : C.nrows = A.nrows) (hMr : M.nrows = C.nrows) (hMcB : B.nrows ≤ M.ncols)
    (hCk : ∀ k, ∀ p ∈ C.getRow k, p.1 < M.ncols)
    (hfull : ∀ i, i < M.nrows → ∀ j, j < M.ncols → rowHas (M.getRow i) j = true) :
    ABT_CompMask_Accum_kernel C M accum semiring A B true = C.clear := by
  apply LilSparseMatrix.ext_getRow
  · simp [ABT_CompMask_Accum_kernel_ncols, LilSparseMatrix.ncols_clear]
  · simp [ABT_CompMask_Accum_kernel_nrows, LilSparseMatrix.nrows_clear]
  intro k
  rw [ABT_CompMask_Accum_kernel_getRow_replace, LilSparseMatrix.getRow_clear]
  by_cases h1 : k < A.nrows ∧ k < C.nrows
  · rw [if_pos h1]
    apply masked_accum_full_true M.ncols (M.getRow k) accum _ _ (hfull k (by omega)) (hCk k)
    intro p hp
    split at hp
    · cases hp
    · exact Nat.lt_of_lt_of_le (mem_ABT_Masked_row_lt hp) hMcB
  · rw [if_neg h1]
    exact C.getRow_eq_nil_of_le k (by omega)

theorem ABT_CompMask_Accum_kernel_full_merge (C : LilSparseMatrix α)
    (M : LilSparseMatrix μ) (accum : α → α → α) (semiring : SemiringOps α)
    (A B : LilSparseMatrix α)
    (hMr : M.nrows = C.nrows) (hMcB : B.nrows ≤ M.ncols)
    (hCk : ∀ k, ∀ p ∈ C.getRow k, p.1 < M.ncols)
    (hfull : ∀ i, i < M.nrows → ∀ j, j < M.ncols → rowHas (M.getRow i) j = true) :
    ABT_CompMask_Accum_kernel C M accum semiring A B false = C := by
  apply LilSparseMatrix.ext_getRow
  · simp [ABT_CompMask_Accum_kernel_ncols]
  · simp [ABT_CompMask_Accum_kernel_nrows]
  intro k
  rw [ABT_CompMask_Accum_kernel_getRow_merge]
  by_cases h1 : k < A.nrows ∧ k < C.nrows
  · rw [if_pos h1]
    have hTlt : ∀ p ∈ (if (A.getRow k).isEmpty then []
                       else ABT_Masked_row (M.getRow k) true semiring A B k),
        p.1 < M.ncols := by
      intro p hp
      split at hp
      · cases hp
      · exact Nat.lt_of_lt_of_le (mem_ABT_Masked_row_lt hp) hMcB
    rw [masked_accum_full_true M.ncols (M.getRow k) accum _ _ (hfull k (by omega))
        (hCk k) hTlt]
    apply masked_merge_full_true M.ncols (M.getRow k) _ _ (hfull k (by omega)) (hCk k)
    intro p hp
    cases hp
  · rw [if_neg h1]

theorem sparse_mxm_CompMask_NoAccum_ABT_complement (C : LilSparseMatrix α)
    (M : LilSparseMatrix μ) (v : μ) (semiring : SemiringOps α)
    (A B : LilSparseMatrix α) (replace_flag aliased : Bool)
    (hCA : C.nrows = A.nrows) (hMr : M.nrows = C.nrows) (hMc : M.ncols = C.ncols)
    (hCB : C.ncols = B.nrows) (hCin : C.InBounds) :
    sparse_mxm_CompMask_NoAccum_ABT C M semiring A B replace_flag aliased
      = sparse_mxm_Mask_NoAccum_ABT C (complementM v M) semiring A B replace_flag aliased := by
  have hMcB : B.nrows ≤ M.ncols := by omega
  have hCk : ∀ k, ∀ p ∈ C.getRow k, p.1 < M.ncols := by
    intro k p hp
    have := LilSparseMatrix.inBounds_getRow hCin k p hp
    omega
  have hOfk : ∀ k, ∀ p ∈ (LilSparseMatrix.ofDims (α := α) C.nrows C.ncols).getRow k,
      p.1 < M.ncols := by
    intro k p hp
    rw [LilSparseMatrix.getRow_ofDims] at hp
    cases hp
  have hMrOf : M.nrows = (LilSparseMatrix.ofDims (α := α) C.nrows C.ncols).nrows := by
    rw [LilSparseMatrix.nrows_ofDims]; exact hMr
  unfold sparse_mxm_CompMask_NoAccum_ABT sparse_mxm_Mask_NoAccum_ABT
  cases replace_flag with
  | true =>
    by_cases hAB : (A.nvals == 0 || B.nvals == 0) = true
    · have h2 : (true && (A.nvals == 0 || B.nvals == 0
          || ((complementM v M).nvals == 0))) = true := by
        rcases (by simpa using hAB : A.nvals = 0 ∨ B.nvals = 0) with h | h <;> simp [h]
      rw [if_pos (show (true && (A.nvals == 0 || B.nvals == 0)) = true by simp [hAB]),
          if_pos h2]
    · have hAB' : (A.nvals == 0 || B.nvals == 0) = false := eq_false_of_ne_true hAB
      obtain ⟨hA0, hB0⟩ := Bool.or_eq_false_iff.mp hAB'
      rw [if_neg (show ¬((true && (A.nvals == 0 || B.nvals == 0)) = true) by simp [hAB'])]
      by_cases hq : ((complementM v M).nvals == 0) = true
      · have hfull : ∀ i, i < M.nrows → ∀ j, j < M.ncols → rowHas (M.getRow i) j = true :=
          complementM_nvals_zero v M (by simpa using hq)
        rw [if_pos (show (true && (A.nvals == 0 || B.nvals == 0
            || ((complementM v M).nvals == 0))) = true by simp [hq])]
        cases aliased with
        | true =>
          simp only [eq_self_iff_true, if_true]
          rw [ABT_CompMask_NoAccum_kernel_full_replace
                (LilSparseMatrix.ofDims C.nrows C.ncols) M semiring A B
                (by rw [LilSparseMatrix.nrows_ofDims]; exact hCA) hMrOf hMcB hfull,
              LilSparseMatrix.clear_ofDims, LilSparseMatrix.clear_eq_ofDims]
        | false =>
          simp only [Bool.false_eq_true, if_false]
          exact ABT_CompMask_NoAccum_kernel_full_replace C M semiring A B hCA hMr hMcB hfull
      · have hq' : ((complementM v M).nvals == 0) = false := eq_false_of_ne_true hq
        rw [if_neg (show ¬((true && (A.nvals == 0 || B.nvals == 0
              || ((complementM v M).nvals == 0))) = true) by simp [hA0, hB0, hq']),
            if_neg (show ¬((!true && ((complementM v M).nvals == 0)) = true) by simp)]
        cases aliased with
        | true =>
          simp only [eq_self_iff_true, if_true]
          exact ABT_CompMask_NoAccum_kernel_complement
            (LilSparseMatrix.ofDims C.nrows C.ncols) M v semiring A B true hMrOf hMcB hOfk
        | false =>
          simp only [Bool.false_eq_true, if_false]
          exact ABT_CompMask_NoAccum_kernel_complement C M v semiring A B true hMr hMcB hCk
  | false =>
    rw [if_neg (show ¬((false && (A.nvals == 0 || B.nvals == 0)) = true) by simp),
        if_neg (show ¬((false && (A.nvals == 0 || B.nvals == 0
            || ((complementM v M).nvals == 0))) = true) by simp)]
    by_cases hq : ((complementM v M).nvals == 0) = true
    · have hfull := complementM_nvals_zero v M (by simpa using hq)
      rw [if_pos (show ((!false && ((complementM v M).nvals == 0)) = true) by simp [hq])]
      cases aliased with
      | true =>
        simp only [eq_self_iff_true, if_true, Bool.false_eq_true, if_false]
        apply LilSparseMatrix.ext_getRow (wb_masked_merge_ncols C M true _)
          (wb_masked_merge_nrows C M true _)
        intro k
        rw [wb_masked_merge_getRow]
        by_cases hk : k < C.nrows
        · rw [if_pos hk]
          exact masked_merge_full_true M.ncols (M.getRow k) _ _ (hfull k (by omega)) (hCk k)
            (fun p hp => Nat.lt_of_lt_of_le (mem_comp_kernel_ofDims_lt hp) hMcB)
        · rw [if_neg hk]
      | false =>
        simp only [Bool.false_eq_true, if_false]
        exact ABT_CompMask_NoAccum_kernel_full_merge C M semiring A B hMr hMcB hCk hfull
    · have hq' : ((complementM v M).nvals == 0) = false := eq_false_of_ne_true hq
      rw [if_neg (show ¬((!false && ((complementM v M).nvals == 0)) = true) by simp [hq'])]
      cases aliased with
      | true =>
        simp only [eq_self_iff_true, if_true, Bool.false_eq_true, if_false]
        have hK := ABT_CompMask_NoAccum_kernel_complement
          (LilSparseMatrix.ofDims (α := α) C.nrows C.ncols) M v semiring A B true
          hMrOf hMcB hOfk
        apply LilSparseMatrix.ext_getRow
          (by rw [wb_masked_merge_ncols, wb_masked_merge_ncols])
          (by rw [wb_masked_merge_nrows, wb_masked_merge_nrows])
        intro k
        rw [wb_masked_merge_getRow, wb_masked_merge_getRow]
        by_cases hk : k < C.nrows
        · rw [if_pos hk, if_pos hk, ← hK, complementM_getRow v M k (by omega)]
          exact (masked_merge_complement M.ncols v (M.getRow k) _ _ (hCk k)
            (fun p hp => Nat.lt_of_lt_of_le (mem_comp_kernel_ofDims_lt hp) hMcB)).symm
        · rw [if_neg hk, if_neg hk]
      | false =>
        simp only [Bool.false_eq_true, if_false]
        exact ABT_CompMask_NoAccum_kernel_complement C M v semiring A B false hMr hMcB hCk

theorem wb_accum_replace_getRow (C : LilSparseMatrix α) (M : LilSparseMatrix μ)
    (comp : Bool) (accum : α → α → α) (Ctmp : LilSparseMatrix α) (k : Nat) :
    ((List.range C.nrows).foldl
        (fun Cacc i =>
          Cacc.setRow i (masked_accum (M.getRow i) comp accum (Cacc.getRow i) (Ctmp.getRow i))) C).getRow k
      = if k < C.nrows then
          masked_accum (M.getRow k) comp accum (C.getRow k) (Ctmp.getRow k)
        else C.getRow k := by
  have h := range_foldl_getRow
    (fun Cacc i =>
      Cacc.setRow i (masked_accum (M.getRow i) comp accum (Cacc.getRow i) (Ctmp.getRow i)))
    (fun i r => masked_accum (M.getRow i) comp accum r (Ctmp.getRow i))
    (fun Cacc i => Cacc.nrows_setRow ..)
    (fun Cacc i k => by
      simp only [LilSparseMatrix.getRow_setRow]
      split
      · rename_i h; rw [h.1]
      · rfl)
    C.nrows C k
  rw [h]
  simp only [and_self]

theorem wb_accum_replace_nrows (C : LilSparseMatrix α) (M : LilSparseMatrix μ)
    (comp : Bool) (accum : α → α → α) (Ctmp : LilSparseMatrix α) :
    ((List.range C.nrows).foldl
        (fun Cacc i =>
          Cacc.setRow i (masked_accum (M.getRow i) comp accum (Cacc.getRow i) (Ctmp.getRow i))) C).nrows
      = C.nrows :=
  range_foldl_nrows _ (fun Cacc i => Cacc.nrows_setRow ..) _ _

theorem wb_accum_replace_ncols (C : LilSparseMatrix α) (M : LilSparseMatrix μ)
    (comp : Bool) (accum : α → α → α) (Ctmp : LilSparseMatrix α) :
    ((List.range C.nrows).foldl
        (fun Cacc i =>
          Cacc.setRow i (masked_accum (M.getRow i) comp accum (Cacc.getRow i) (Ctmp.getRow i))) C).ncols
      = C.ncols :=
  range_foldl_ncols _ (fun Cacc i => Cacc.ncols_setRow ..) _ _

theorem wb_accum_merge_getRow (C : LilSparseMatrix α) (M : LilSparseMatrix μ)
    (comp : Bool) (accum : α → α → α) (Ctmp : LilSparseMatrix α) (k : Nat) :
    ((List.range C.nrows).foldl
        (fun Cacc i =>
          Cacc.setRow i (masked_merge (M.getRow i) comp (Cacc.getRow i)
            (masked_accum (M.getRow i) comp accum (Cacc.getRow i) (Ctmp.getRow i)))) C).getRow k
      = if k < C.nrows then
          masked_merge (M.getRow k) comp (C.getRow k)
            (masked_accum (M.getRow k) comp accum (C.getRow k) (Ctmp.getRow k))
        else C.getRow k := by
  have h := range_foldl_getRow
    (fun Cacc i =>
      Cacc.setRow i (masked_merge (M.getRow i) comp (Cacc.getRow i)
        (masked_accum (M.getRow i) comp accum (Cacc.getRow i) (Ctmp.getRow i))))
    (fun i r => masked_merge (M.getRow i) comp r
      (masked_accum (M.getRow i) comp accum r (Ctmp.getRow i)))
    (fun Cacc i => Cacc.nrows_setRow ..)
    (fun Cacc i k => by
      simp only [LilSparseMatrix.getRow_setRow]
      split
      · rename_i h; rw [h.1]
      · rfl)
    C.nrows C k
  rw [h]
  simp only [and_self]

theorem wb_accum_merge_nrows (C : LilSparseMatrix α) (M : LilSparseMatrix μ)
    (comp : Bool) (accum : α → α → α) (Ctmp : LilSparseMatrix α) :
    ((List.range C.nrows).foldl
        (fun Cacc i =>
          Cacc.setRow i (masked_merge (M.getRow i) comp (Cacc.getRow i)
            (masked_accum (M.getRow i) comp accum (Cacc.getRow i) (Ctmp.getRow i)))) C).nrows
      = C.nrows :=
  range_foldl_nrows _ (fun Cacc i => Cacc.nrows_setRow ..) _ _

theorem wb_accum_merge_ncols (C : LilSparseMatrix α) (M : LilSparseMatrix μ)
    (comp : Bool) (accum : α → α → α) (Ctmp : LilSparseMatrix α) :
    ((List.range C.nrows).foldl
        (fun Cacc i =>
          Cacc.setRow i (masked_merge (M.getRow i) comp (Cacc.getRow i)
            (masked_accum (M.getRow i) comp accum (Cacc.getRow i) (Ctmp.getRow i)))) C).ncols
      = C.ncols :=
  range_foldl_ncols _ (fun Cacc i => Cacc.ncols_setRow ..) _ _

theorem sparse_mxm_CompMask_Accum_ABT_complement (C : LilSparseMatrix α)
    (M : LilSparseMatrix μ) (v : μ) (accum : α → α → α) (semiring : SemiringOps α)
    (A B : LilSparseMatrix α) (replace_flag aliased : Bool)
    (hCA : C.nrows = A.nrows) (hMr : M.nrows = C.nrows) (hMc : M.ncols = C.ncols)
    (hCB : C.ncols = B.nrows) (hCin : C.InBounds) :
    sparse_mxm_CompMask_Accum_ABT C M accum semiring A B replace_flag aliased
      = sparse_mxm_Mask_Accum_ABT C (complementM v M) accum semiring A B
          replace_flag aliased := by
  have hMcB : B.nrows ≤ M.ncols := by omega
  have hCk : ∀ k, ∀ p ∈ C.getRow k, p.1 < M.ncols := by
    intro k p hp
    have := LilSparseMatrix.inBounds_getRow hCin k p hp
    omega
  have hOfk : ∀ k, ∀ p ∈ (LilSparseMatrix.ofDims (α := α) C.nrows C.ncols).getRow k,
      p.1 < M.ncols := by
    intro k p hp
    rw [LilSparseMatrix.getRow_ofDims] at hp
    cases hp
  have hMrOf : M.nrows = (LilSparseMatrix.ofDims (α := α) C.nrows C.ncols).nrows := by
    rw [LilSparseMatrix.nrows_ofDims]; exact hMr
  have hXlt : ∀ k, ∀ p ∈ (ABT_CompMask_NoAccum_kernel
        (LilSparseMatrix.ofDims C.nrows C.ncols) M semiring A B true).getRow k,
      p.1 < M.ncols :=
    fun k p hp => Nat.lt_of_lt_of_le (mem_comp_kernel_ofDims_lt hp) hMcB
  unfold sparse_mxm_CompMask_Accum_ABT sparse_mxm_Mask_Accum_ABT
  cases replace_flag with
  | true =>
    by_cases hq : ((complementM v M).nvals == 0) = true
    · have hfull := complementM_nvals_zero v M (by simpa using hq)
      rw [if_pos (show (true && ((complementM v M).nvals == 0)) = true by simp [hq])]
      cases aliased with
      | true =>
        simp only [eq_self_iff_true, if_true]
        apply LilSparseMatrix.ext_getRow
          (by rw [wb_accum_replace_ncols, LilSparseMatrix.ncols_clear])
          (by rw [wb_accum_replace_nrows, LilSparseMatrix.nrows_clear])
        intro k
        rw [wb_accum_replace_getRow, LilSparseMatrix.getRow_clear]
        by_cases hk : k < C.nrows
        · rw [if_pos hk]
          exact masked_accum_full_true M.ncols (M.getRow k) accum _ _
            (hfull k (by omega)) (hCk k) (hXlt k)
        · rw [if_neg hk]
          exact C.getRow_eq_nil_of_le k (Nat.le_of_not_lt hk)
      | false =>
        simp only [Bool.false_eq_true, if_false]
        exact ABT_CompMask_Accum_kernel_full_replace C M accum semiring A B
          hCA hMr hMcB hCk hfull
    · have hq' : ((complementM v M).nvals == 0) = false := eq_false_of_ne_true hq
      rw [if_neg (show ¬((true && ((complementM v M).nvals == 0)) = true) by simp [hq']),
          if_neg (show ¬((!true && ((complementM v M).nvals == 0)) = true) by simp)]
      cases aliased with
      | true =>
        simp only [eq_self_iff_true, if_true]
        have hK := ABT_CompMask_NoAccum_kernel_complement
          (LilSparseMatrix.ofDims (α := α) C.nrows C.ncols) M v semiring A B true
          hMrOf hMcB hOfk
        apply LilSparseMatrix.ext_getRow
          (by rw [wb_accum_replace_ncols, wb_accum_replace_ncols])
          (by rw [wb_accum_replace_nrows, wb_accum_replace_nrows])
        intro k
        rw [wb_accum_replace_getRow, wb_accum_replace_getRow]
        by_cases hk : k < C.nrows
        · rw [if_pos hk, if_pos hk, ← hK, complementM_getRow v M k (by omega)]
          exact (masked_accum_complement M.ncols v (M.getRow k) accum _ _
            (hCk k) (hXlt k)).symm
        · rw [if_neg hk, if_neg hk]
      | false =>
        simp only [Bool.false_eq_true, if_false]
        exact ABT_CompMask_Accum_kernel_complement C M v accum semiring A B true
          hMr hMcB hCk
  | false =>
    by_cases hq : ((complementM v M).nvals == 0) = true
    · have hfull := complementM_nvals_zero v M (by simpa using hq)
      rw [if_neg (show ¬((false && ((complementM v M).nvals == 0)) = true) by simp),
          if_pos (show ((!false && ((complementM v M).nvals == 0)) = true) by simp [hq])]
      cases aliased with
      | true =>
        simp only [eq_self_iff_true, if_true, Bool.false_eq_true, if_false]
        apply LilSparseMatrix.ext_getRow
          (by rw [wb_accum_merge_ncols])
          (by rw [wb_accum_merge_nrows])
        intro k
        rw [wb_accum_merge_getRow]
        by_cases hk : k < C.nrows
        · rw [if_pos hk,
            masked_accum_full_true M.ncols (M.getRow k) accum _ _
              (hfull k (by omega)) (hCk k) (hXlt k)]
          exact masked_merge_full_true M.ncols (M.getRow k) _ _
            (hfull k (by omega)) (hCk k) (fun p hp => absurd hp (List.not_mem_nil p))
        · rw [if_neg hk]
      | false =>
        simp only [Bool.false_eq_true, if_false]
        exact ABT_CompMask_Accum_kernel_full_merge C M accum semiring A B
          hMr hMcB hCk hfull
    · have hq' : ((complementM v M).nvals == 0) = false := eq_false_of_ne_true hq
      rw [if_neg (show ¬((false && ((complementM v M).nvals == 0)) = true) by simp),
          if_neg (show ¬((!false && ((complementM v M).nvals == 0)) = true) by simp [hq'])]
      cases aliased with
      | true =>
        simp only [eq_self_iff_true, if_true, Bool.false_eq_true, if_false]
        have hK := ABT_CompMask_NoAccum_kernel_complement
          (LilSparseMatrix.ofDims (α := α) C.nrows C.ncols) M v semiring A B true
          hMrOf hMcB hOfk
        apply LilSparseMatrix.ext_getRow
          (by rw [wb_accum_merge_ncols, wb_accum_merge_ncols])
          (by rw [wb_accum_merge_nrows, wb_accum_merge_nrows])
        intro k
        rw [wb_accum_merge_getRow, wb_accum_merge_getRow]
        by_cases hk : k < C.nrows
        · rw [if_pos hk, if_pos hk, ← hK, complementM_getRow v M k (by omega),
            masked_accum_complement M.ncols v (M.getRow k) accum _ _ (hCk k) (hXlt k)]
          exact (masked_merge_complement M.ncols v (M.getRow k) _ _ (hCk k)
            (fun p hp => mem_masked_accum_lt (hCk k) (hXlt k) hp)).symm
        · rw [if_neg hk, if_neg hk]
      | false =>
        simp only [Bool.false_eq_true, if_false]
        exact ABT_CompMask_Accum_kernel_complement C M v accum semiring A B false
          hMr hMcB hCk

/-! ## The claims -/

/-- C1 (code divergence at the failing input): with `A.nvals() > 0`,
`B.nvals() > 0`, `C` not aliased to `B`, and `A`'s row 1 empty, the claim
says `C`'s row 1 is empty after `sparse_mxm_NoMask_NoAccum_ABT`; the code
instead leaves `C`'s prior row 1 (here `[(0, 7)]`) in place, because the
kernel's `continue` on an empty `A` row skips the `setRow`. -/
theorem C1_empty_A_row_keeps_stale_C_row :
    (⟨2, [[(0, 1)], []]⟩ : LilSparseMatrix Nat).nvals ≠ 0
    ∧ (⟨2, [[(0, 1)], [(0, 1)]]⟩ : LilSparseMatrix Nat).nvals ≠ 0
    ∧ (⟨2, [[(0, 1)], []]⟩ : LilSparseMatrix Nat).getRow 1 = []
    ∧ (sparse_mxm_NoMask_NoAccum_ABT (⟨2, [[], [(0, 7)]]⟩ : LilSparseMatrix Nat)
        srN ⟨2, [[(0, 1)], []]⟩ ⟨2, [[(0, 1)], [(0, 1)]]⟩ false).getRow 1
      = [(0, 7)] := by decide

/-- C2 (code divergence at the failing input): calling
`sparse_mxm_NoMask_NoAccum_ABT` with `C` and `B` the same matrix object
(`aliased` branch, fresh temporary swapped in) empties output row 1, while
the same call on a distinct copy of `B` leaves `C`'s stale row 1 in place,
so aliased and copy-then-call results differ. -/
theorem C2_aliasing_differs_from_copy_NoMask_NoAccum :
    sparse_mxm_NoMask_NoAccum_ABT (⟨2, [[(0, 1)], [(0, 1)]]⟩ : LilSparseMatrix Nat)
        srN ⟨2, [[(0, 1)], []]⟩ ⟨2, [[(0, 1)], [(0, 1)]]⟩ true
      ≠ sparse_mxm_NoMask_NoAccum_ABT (⟨2, [[(0, 1)], [(0, 1)]]⟩ : LilSparseMatrix Nat)
        srN ⟨2, [[(0, 1)], []]⟩ ⟨2, [[(0, 1)], [(0, 1)]]⟩ false := by decide

/-- C3: mask complement duality under the standard shape preconditions
(`C.nrows = A.nrows`, `M` shaped like `C`, `C.ncols = B.nrows`) and the
row invariant on `C`: each CompMask entry point on mask `M` computes the
same final `C` as the corresponding uncomplemented entry point on the
structural complement of `M` (an entry exactly at the in-bounds positions
`M` leaves absent), for every `A`, `B`, `C`, accumulator, semiring,
`replace_flag` and aliasing branch. -/
theorem C3_mask_complement_duality (C : LilSparseMatrix α) (M : LilSparseMatrix μ)
    (v : μ) (accum : α → α → α) (semiring : SemiringOps α) (A B : LilSparseMatrix α)
    (replace_flag aliased : Bool)
    (hCA : C.nrows = A.nrows) (hMr : M.nrows = C.nrows) (hMc : M.ncols = C.ncols)
    (hCB : C.ncols = B.nrows) (hCin : C.InBounds) :
    sparse_mxm_CompMask_NoAccum_ABT C M semiring A B replace_flag aliased
      = sparse_mxm_Mask_NoAccum_ABT C (complementM v M) semiring A B
          replace_flag aliased
    ∧ sparse_mxm_CompMask_Accum_ABT C M accum semiring A B replace_flag aliased
      = sparse_mxm_Mask_Accum_ABT C (complementM v M) accum semiring A B
          replace_flag aliased :=
  ⟨sparse_mxm_CompMask_NoAccum_ABT_complement C M v semiring A B replace_flag aliased
      hCA hMr hMc hCB hCin,
   sparse_mxm_CompMask_Accum_ABT_complement C M v accum semiring A B replace_flag aliased
      hCA hMr hMc hCB hCin⟩

/-- Witness for C3 at a concrete 2-by-2 instance (mask with one stored
entry, merge semantics, no aliasing). -/
theorem C3_witness :
    ((⟨2, [[(0, 5)], [(1, 6)]]⟩ : LilSparseMatrix Nat).nrows
        = (⟨2, [[(0, 1)], [(1, 2)]]⟩ : LilSparseMatrix Nat).nrows
      ∧ (⟨2, [[(0, 1)], []]⟩ : LilSparseMatrix Nat).nrows
        = (⟨2, [[(0, 5)], [(1, 6)]]⟩ : LilSparseMatrix Nat).nrows
      ∧ (⟨2, [[(0, 1)], []]⟩ : LilSparseMatrix Nat).ncols
        = (⟨2, [[(0, 5)], [(1, 6)]]⟩ : LilSparseMatrix Nat).ncols
      ∧ (⟨2, [[(0, 5)], [(1, 6)]]⟩ : LilSparseMatrix Nat).ncols
        = (⟨2, [[(0, 3)], [(0, 4)]]⟩ : LilSparseMatrix Nat).nrows
      ∧ (⟨2, [[(0, 5)], [(1, 6)]]⟩ : LilSparseMatrix Nat).InBounds)
    ∧ (sparse_mxm_CompMask_NoAccum_ABT (⟨2, [[(0, 5)], [(1, 6)]]⟩ : LilSparseMatrix Nat)
          (⟨2, [[(0, 1)], []]⟩ : LilSparseMatrix Nat) srN
          (⟨2, [[(0, 1)], [(1, 2)]]⟩ : LilSparseMatrix Nat)
          (⟨2, [[(0, 3)], [(0, 4)]]⟩ : LilSparseMatrix Nat) false false
        = sparse_mxm_Mask_NoAccum_ABT (⟨2, [[(0, 5)], [(1, 6)]]⟩ : LilSparseMatrix Nat)
            (complementM 7 (⟨2, [[(0, 1)], []]⟩ : LilSparseMatrix Nat)) srN
            (⟨2, [[(0, 1)], [(1, 2)]]⟩ : LilSparseMatrix Nat)
            (⟨2, [[(0, 3)], [(0, 4)]]⟩ : LilSparseMatrix Nat) false false
       ∧ sparse_mxm_CompMask_Accum_ABT (⟨2, [[(0, 5)], [(1, 6)]]⟩ : LilSparseMatrix Nat)
           (⟨2, [[(0, 1)], []]⟩ : LilSparseMatrix Nat) Nat.add srN
           (⟨2, [[(0, 1)], [(1, 2)]]⟩ : LilSparseMatrix Nat)
           (⟨2, [[(0, 3)], [(0, 4)]]⟩ : LilSparseMatrix Nat) false false
         = sparse_mxm_Mask_Accum_ABT (⟨2, [[(0, 5)], [(1, 6)]]⟩ : LilSparseMatrix Nat)
             (complementM 7 (⟨2, [[(0, 1)], []]⟩ : LilSparseMatrix Nat)) Nat.add srN
             (⟨2, [[(0, 1)], [(1, 2)]]⟩ : LilSparseMatrix Nat)
             (⟨2, [[(0, 3)], [(0, 4)]]⟩ : LilSparseMatrix Nat) false false) :=
  ⟨⟨by decide, by decide, by decide, by decide, by decide⟩,
   C3_mask_complement_duality _ _ 7 Nat.add srN _ _ false false
     (by decide) (by decide) (by decide) (by decide) (by decide)⟩

/-- C4: when the mask stores no values, `sparse_mxm_Mask_Accum_ABT` clears
`C` if `replace_flag` is set (ending with zero stored values) and returns
`C` unchanged otherwise, for every `A`, `B`, accumulator and semiring. -/
theorem C4_Mask_Accum_empty_mask_short_circuit (C : LilSparseMatrix α)
    (M : LilSparseMatrix μ) (accum : α → α → α) (semiring : SemiringOps α)
    (A B : LilSparseMatrix α) (replace_flag aliased : Bool)
    (h : M.nvals = 0) :
    sparse_mxm_Mask_Accum_ABT C M accum semiring A B replace_flag aliased
      = (if replace_flag then C.clear else C)
    ∧ (replace_flag = true →
        (sparse_mxm_Mask_Accum_ABT C M accum semiring A B replace_flag aliased).nvals = 0) := by
  cases replace_flag with
  | true =>
    constructor
    · unfold sparse_mxm_Mask_Accum_ABT
      simp [h]
    · intro _
      unfold sparse_mxm_Mask_Accum_ABT
      simp [h, C.nvals_clear]
  | false =>
    constructor
    · unfold sparse_mxm_Mask_Accum_ABT
      simp [h]
    · intro hcon
      cases hcon

/-- Witness for C4 at a concrete empty mask, with `replace_flag = true`. -/
theorem C4_witness :
    (⟨2, [[], []]⟩ : LilSparseMatrix Nat).nvals = 0
    ∧ (sparse_mxm_Mask_Accum_ABT (⟨2, [[(0, 3)], [(1, 4)]]⟩ : LilSparseMatrix Nat)
          (⟨2, [[], []]⟩ : LilSparseMatrix Nat) Nat.add srN
          ⟨2, [[(0, 1)], []]⟩ ⟨2, [[(1, 2)], []]⟩ true false
        = (if true then (⟨2, [[(0, 3)], [(1, 4)]]⟩ : LilSparseMatrix Nat).clear
           else (⟨2, [[(0, 3)], [(1, 4)]]⟩ : LilSparseMatrix Nat))
       ∧ (true = true →
          (sparse_mxm_Mask_Accum_ABT (⟨2, [[(0, 3)], [(1, 4)]]⟩ : LilSparseMatrix Nat)
            (⟨2, [[], []]⟩ : LilSparseMatrix Nat) Nat.add srN
            ⟨2, [[(0, 1)], []]⟩ ⟨2, [[(1, 2)], []]⟩ true false).nvals = 0)) :=
  ⟨by decide, C4_Mask_Accum_empty_mask_short_circuit _ _ _ _ _ _ _ _ (by decide)⟩

/-- C6: when `A` or `B` stores no values, `sparse_mxm_NoMask_NoAccum_ABT`
clears `C` (ending with zero stored values) without running the kernel. -/
theorem C6_NoMask_NoAccum_short_circuit_clears (C : LilSparseMatrix α)
    (semiring : SemiringOps α) (A B : LilSparseMatrix α) (aliased : Bool)
    (h : A.nvals = 0 ∨ B.nvals = 0) :
    sparse_mxm_NoMask_NoAccum_ABT C semiring A B aliased = C.clear
    ∧ (sparse_mxm_NoMask_NoAccum_ABT C semiring A B aliased).nvals = 0 := by
  have hc : (A.nvals == 0 || B.nvals == 0) = true := by
    rcases h with h | h <;> simp [h]
  unfold sparse_mxm_NoMask_NoAccum_ABT
  rw [if_pos hc]
  exact ⟨rfl, C.nvals_clear⟩

/-- Witness for C6 with an empty `A` and non-empty `B` and prior `C`. -/
theorem C6_witness :
    ((⟨2, [[], []]⟩ : LilSparseMatrix Nat).nvals = 0
      ∨ (⟨2, [[(0, 1)], []]⟩ : LilSparseMatrix Nat).nvals = 0)
    ∧ (sparse_mxm_NoMask_NoAccum_ABT (⟨2, [[(0, 5)], [(1, 7)]]⟩ : LilSparseMatrix Nat)
          srN (⟨2, [[], []]⟩ : LilSparseMatrix Nat)
          (⟨2, [[(0, 1)], []]⟩ : LilSparseMatrix Nat) false
        = (⟨2, [[(0, 5)], [(1, 7)]]⟩ : LilSparseMatrix Nat).clear
       ∧ (sparse_mxm_NoMask_NoAccum_ABT (⟨2, [[(0, 5)], [(1, 7)]]⟩ : LilSparseMatrix Nat)
            srN (⟨2, [[], []]⟩ : LilSparseMatrix Nat)
            (⟨2, [[(0, 1)], []]⟩ : LilSparseMatrix Nat) false).nvals = 0) :=
  ⟨Or.inl (by decide),
   C6_NoMask_NoAccum_short_circuit_clears _ _ _ _ _ (Or.inl (by decide))⟩

/-- C7: when `A` or `B` stores no values, `sparse_mxm_NoMask_Accum_ABT`
returns with `C` completely unchanged. -/
theorem C7_NoMask_Accum_short_circuit_unchanged (C : LilSparseMatrix α)
    (accum : α → α → α) (semiring : SemiringOps α) (A B : LilSparseMatrix α)
    (aliased : Bool) (h : A.nvals = 0 ∨ B.nvals = 0) :
    sparse_mxm_NoMask_Accum_ABT C accum semiring A B aliased = C := by
  have hc : (A.nvals == 0 || B.nvals == 0) = true := by
    rcases h with h | h <;> simp [h]
  unfold sparse_mxm_NoMask_Accum_ABT
  rw [if_pos hc]

/-- Witness for C7 with an empty `B` and non-empty `A` and prior `C`. -/
theorem C7_witness :
    ((⟨2, [[(0, 1)], []]⟩ : LilSparseMatrix Nat).nvals = 0
      ∨ (⟨2, [[], []]⟩ : LilSparseMatrix Nat).nvals = 0)
    ∧ sparse_mxm_NoMask_Accum_ABT (⟨2, [[(0, 5)], [(1, 7)]]⟩ : LilSparseMatrix Nat)
        Nat.add srN (⟨2, [[(0, 1)], []]⟩ : LilSparseMatrix Nat)
        (⟨2, [[], []]⟩ : LilSparseMatrix Nat) false
      = (⟨2, [[(0, 5)], [(1, 7)]]⟩ : LilSparseMatrix Nat) :=
  ⟨Or.inr (by decide),
   C7_NoMask_Accum_short_circuit_unchanged _ _ _ _ _ _ (Or.inr (by decide))⟩

/-- C8: `sparse_mxm_NoMask_NoAccum_ABT` (with `C` not aliased to `B`) is
idempotent: running it a second time on its own output, with the same
`A`, `B` and semiring, reproduces that output exactly. -/
theorem C8_NoMask_NoAccum_idempotent (C : LilSparseMatrix α)
    (semiring : SemiringOps α) (A B : LilSparseMatrix α) :
    sparse_mxm_NoMask_NoAccum_ABT
        (sparse_mxm_NoMask_NoAccum_ABT C semiring A B false) semiring A B false
      = sparse_mxm_NoMask_NoAccum_ABT C semiring A B false := by
  unfold sparse_mxm_NoMask_NoAccum_ABT
  by_cases hc : (A.nvals == 0 || B.nvals == 0) = true
  · simp only [hc, if_true]
    exact LilSparseMatrix.clear_clear _
  · have hc' : (A.nvals == 0 || B.nvals == 0) = false := by
      simpa using hc
    simp only [hc', Bool.false_eq_true, if_false]
    exact ABT_NoMask_NoAccum_kernel_idem C semiring A B

/-- C9: all six entry points preserve the destination's dimensions
(`nrows` and `ncols`), for every combination of inputs, flags and
aliasing. -/
theorem C9_entry_points_preserve_dims :
    (∀ (α : Type) (C : LilSparseMatrix α) (semiring : SemiringOps α)
        (A B : LilSparseMatrix α) (aliased : Bool),
      (sparse_mxm_NoMask_NoAccum_ABT C semiring A B aliased).nrows = C.nrows
      ∧ (sparse_mxm_NoMask_NoAccum_ABT C semiring A B aliased).ncols = C.ncols)
    ∧ (∀ (α : Type) (C : LilSparseMatrix α) (accum : α → α → α)
        (semiring : SemiringOps α) (A B : LilSparseMatrix α) (aliased : Bool),
      (sparse_mxm_NoMask_Accum_ABT C accum semiring A B aliased).nrows = C.nrows
      ∧ (sparse_mxm_NoMask_Accum_ABT C accum semiring A B aliased).ncols = C.ncols)
    ∧ (∀ (α μ : Type) (C : LilSparseMatrix α) (M : LilSparseMatrix μ)
        (semiring : SemiringOps α) (A B : LilSparseMatrix α) (replace_flag aliased : Bool),
      (sparse_mxm_Mask_NoAccum_ABT C M semiring A B replace_flag aliased).nrows = C.nrows
      ∧ (sparse_mxm_Mask_NoAccum_ABT C M semiring A B replace_flag aliased).ncols = C.ncols)
    ∧ (∀ (α μ : Type) (C : LilSparseMatrix α) (M : LilSparseMatrix μ) (accum : α → α → α)
        (semiring : SemiringOps α) (A B : LilSparseMatrix α) (replace_flag aliased : Bool),
      (sparse_mxm_Mask_Accum_ABT C M accum semiring A B replace_flag aliased).nrows = C.nrows
      ∧ (sparse_mxm_Mask_Accum_ABT C M accum semiring A B replace_flag aliased).ncols = C.ncols)
    ∧ (∀ (α μ : Type) (C : LilSparseMatrix α) (M : LilSparseMatrix μ)
        (semiring : SemiringOps α) (A B : LilSparseMatrix α) (replace_flag aliased : Bool),
      (sparse_mxm_CompMask_NoAccum_ABT C M semiring A B replace_flag aliased).nrows = C.nrows
      ∧ (sparse_mxm_CompMask_NoAccum_ABT C M semiring A B replace_flag aliased).ncols = C.ncols)
    ∧ (∀ (α μ : Type) (C : LilSparseMatrix α) (M : LilSparseMatrix μ) (accum : α → α → α)
        (semiring : SemiringOps α) (A B : LilSparseMatrix α) (replace_flag aliased : Bool),
      (sparse_mxm_CompMask_Accum_ABT C M accum semiring A B replace_flag aliased).nrows = C.nrows
      ∧ (sparse_mxm_CompMask_Accum_ABT C M accum semiring A B replace_flag aliased).ncols = C.ncols) :=
  ⟨fun _ C semiring A B aliased => sparse_mxm_NoMask_NoAccum_ABT_dims C semiring A B aliased,
   fun _ C accum semiring A B aliased => sparse_mxm_NoMask_Accum_ABT_dims C accum semiring A B aliased,
   fun _ _ C M semiring A B rf al => sparse_mxm_Mask_NoAccum_ABT_dims C M semiring A B rf al,
   fun _ _ C M accum semiring A B rf al => sparse_mxm_Mask_Accum_ABT_dims C M accum semiring A B rf al,
   fun _ _ C M semiring A B rf al => sparse_mxm_CompMask_NoAccum_ABT_dims C M semiring A B rf al,
   fun _ _ C M accum semiring A B rf al => sparse_mxm_CompMask_Accum_ABT_dims C M accum semiring A B rf al⟩

/-- C10: for `sparse_mxm_Mask_NoAccum_ABT` with `replace_flag = false` and
a non-empty mask (so no short-circuit fires), every row `i` whose mask row
is empty ends the call with exactly its pre-call contents. -/
theorem C10_Mask_NoAccum_empty_mask_row_keeps_C_row (C : LilSparseMatrix α)
    (M : LilSparseMatrix μ) (semiring : SemiringOps α) (A B : LilSparseMatrix α)
    (aliased : Bool) (i : Nat) (hM : M.nvals ≠ 0) (hMi : M.getRow i = []) :
    (sparse_mxm_Mask_NoAccum_ABT C M semiring A B false aliased).getRow i
      = C.getRow i := by
  have h2 : (!false && (M.nvals == 0)) = false := by
    simp only [Bool.not_false, Bool.true_and]
    simpa using hM
  unfold sparse_mxm_Mask_NoAccum_ABT
  simp only [Bool.false_and, h2, Bool.false_eq_true, if_false]
  split
  · rw [wb_masked_merge_getRow]
    split
    · rw [hMi, masked_merge_nil_false]
    · rfl
  · rw [ABT_Mask_NoAccum_kernel_getRow]
    split
    · simp [hMi, masked_merge_nil_false]
    · rfl

/-- C5: `sparse_mxm_CompMask_Accum_ABT` has no short-circuit: even with a
mask storing no values the computation runs; a row with an empty mask row
is not skipped (the complemented test admits every column, so its
contribution row equals the unmasked one), and with an entirely empty mask
the final `C` equals accumulating the full unmasked product `A +.* B'`
into `C`, i.e. the result of `sparse_mxm_NoMask_Accum_ABT`. -/
theorem C5_CompMask_Accum_empty_mask_runs_full (C : LilSparseMatrix α)
    (M : LilSparseMatrix μ) (accum : α → α → α) (semiring : SemiringOps α)
    (A B : LilSparseMatrix α) (replace_flag aliased : Bool)
    (hM : M.nvals = 0) :
    (∀ i, ABT_Masked_row (M.getRow i) true semiring A B i
            = ABT_NoMask_row semiring A B i)
    ∧ sparse_mxm_CompMask_Accum_ABT C M accum semiring A B replace_flag aliased
        = sparse_mxm_NoMask_Accum_ABT C accum semiring A B aliased := by
  have hrow : ∀ i, M.getRow i = [] := M.getRow_eq_nil_of_nvals hM
  refine ⟨fun i => by rw [hrow i]; exact ABT_Masked_row_nil_mask semiring A B i, ?_⟩
  have hcanL : ∀ k,
      (sparse_mxm_CompMask_Accum_ABT C M accum semiring A B replace_flag aliased).getRow k
        = (if k < A.nrows ∧ k < C.nrows then
             unionWith accum (C.getRow k)
               (if (A.getRow k).isEmpty then [] else ABT_NoMask_row semiring A B k)
           else C.getRow k) := by
    intro k
    unfold sparse_mxm_CompMask_Accum_ABT
    split
    · rw [wb_masked_accum_getRow, ABT_CompMask_NoAccum_kernel_getRow]
      simp only [LilSparseMatrix.nrows_ofDims, LilSparseMatrix.getRow_ofDims,
        hrow k, masked_accum_nil_true, masked_merge_nil_true, ite_self]
      by_cases h1 : k < C.nrows
      · by_cases h2 : k < A.nrows
        · simp only [h1, h2, and_self, if_true, true_and]
          by_cases hA : (A.getRow k).isEmpty <;>
            simp [hA, ABT_Masked_row_nil_mask]
        · simp [h1, h2, unionWith_nil_right]
      · simp [h1, show ¬(k < A.nrows ∧ k < C.nrows) from fun h => h1 h.2]
    · rw [ABT_CompMask_Accum_kernel_getRow]
      simp only [hrow k, masked_accum_nil_true, masked_merge_nil_true, ite_self]
      by_cases h1 : k < A.nrows ∧ k < C.nrows
      · simp only [h1, if_true]
        by_cases hA : (A.getRow k).isEmpty <;>
          simp [hA, ABT_Masked_row_nil_mask]
      · simp [h1]
  have hcanR : ∀ k,
      (sparse_mxm_NoMask_Accum_ABT C accum semiring A B aliased).getRow k
        = (if k < A.nrows ∧ k < C.nrows then
             unionWith accum (C.getRow k)
               (if (A.getRow k).isEmpty then [] else ABT_NoMask_row semiring A B k)
           else C.getRow k) := by
    intro k
    unfold sparse_mxm_NoMask_Accum_ABT
    by_cases hc : (A.nvals == 0 || B.nvals == 0) = true
    · rw [if_pos hc]
      have hAB : A.nvals = 0 ∨ B.nvals = 0 := by simpa using hc
      symm
      rcases hAB with h | h
      · by_cases h1 : k < A.nrows ∧ k < C.nrows
        · simp [h1, A.getRow_eq_nil_of_nvals h k, unionWith_nil_right]
        · simp [h1]
      · by_cases h1 : k < A.nrows ∧ k < C.nrows
        · simp [h1, ABT_NoMask_row_of_B_empty semiring A B k h, ite_self,
            unionWith_nil_right]
        · simp [h1]
    · rw [if_neg hc]
      split
      · rw [wb_mergeRow_getRow, ABT_NoMask_NoAccum_kernel_getRow]
        simp only [LilSparseMatrix.nrows_ofDims, LilSparseMatrix.getRow_ofDims]
        by_cases h1 : k < C.nrows
        · by_cases h2 : k < A.nrows
          · simp [h1, h2]
          · simp [h1, h2, unionWith_nil_right]
        · simp [h1, show ¬(k < A.nrows ∧ k < C.nrows) from fun h => h1 h.2]
      · rw [ABT_NoMask_Accum_kernel_getRow]
        by_cases h1 : k < A.nrows ∧ k < C.nrows
        · simp only [h1, if_true]
          by_cases hA : (A.getRow k).isEmpty
          · simp [hA, unionWith_nil_right]
          · simp only [hA, Bool.false_eq_true, if_false]
            by_cases hT : (ABT_NoMask_row semiring A B k).isEmpty
            · simp [hT, List.isEmpty_iff.mp hT, unionWith_nil_right]
            · simp [hT]
        · simp [h1]
  apply LilSparseMatrix.ext_getRow
  · exact (sparse_mxm_CompMask_Accum_ABT_dims C M accum semiring A B replace_flag aliased).2.trans
      (sparse_mxm_NoMask_Accum_ABT_dims C accum semiring A B aliased).2.symm
  · exact (sparse_mxm_CompMask_Accum_ABT_dims C M accum semiring A B replace_flag aliased).1.trans
      (sparse_mxm_NoMask_Accum_ABT_dims C accum semiring A B aliased).1.symm
  · intro k
    rw [hcanL k, hcanR k]

/-- Witness for C5 at a concrete empty mask (replace set, no aliasing). -/
theorem C5_witness :
    (⟨2, [[], []]⟩ : LilSparseMatrix Nat).nvals = 0
    ∧ ((∀ i, ABT_Masked_row ((⟨2, [[], []]⟩ : LilSparseMatrix Nat).getRow i) true srN
               (⟨2, [[(0, 1)], [(1, 1)]]⟩ : LilSparseMatrix Nat)
               (⟨2, [[(0, 2)], [(1, 3)]]⟩ : LilSparseMatrix Nat) i
             = ABT_NoMask_row srN
               (⟨2, [[(0, 1)], [(1, 1)]]⟩ : LilSparseMatrix Nat)
               (⟨2, [[(0, 2)], [(1, 3)]]⟩ : LilSparseMatrix Nat) i)
       ∧ sparse_mxm_CompMask_Accum_ABT (⟨2, [[(0, 9)], []]⟩ : LilSparseMatrix Nat)
           (⟨2, [[], []]⟩ : LilSparseMatrix Nat) Nat.add srN
           (⟨2, [[(0, 1)], [(1, 1)]]⟩ : LilSparseMatrix Nat)
           (⟨2, [[(0, 2)], [(1, 3)]]⟩ : LilSparseMatrix Nat) true false
         = sparse_mxm_NoMask_Accum_ABT (⟨2, [[(0, 9)], []]⟩ : LilSparseMatrix Nat)
             Nat.add srN
             (⟨2, [[(0, 1)], [(1, 1)]]⟩ : LilSparseMatrix Nat)
             (⟨2, [[(0, 2)], [(1, 3)]]⟩ : LilSparseMatrix Nat) false) :=
  ⟨by decide,
   C5_CompMask_Accum_empty_mask_runs_full _ _ _ _ _ _ _ _ (by decide)⟩

/-- Witness for C10: mask row 1 is empty, mask row 0 is not; row 1 of `C`
survives unchanged. -/
theorem C10_witness :
    ((⟨2, [[(0, 1)], []]⟩ : LilSparseMatrix Nat).nvals ≠ 0
      ∧ (⟨2, [[(0, 1)], []]⟩ : LilSparseMatrix Nat).getRow 1 = [])
    ∧ (sparse_mxm_Mask_NoAccum_ABT (⟨2, [[(0, 2)], [(1, 3)]]⟩ : LilSparseMatrix Nat)
          (⟨2, [[(0, 1)], []]⟩ : LilSparseMatrix Nat) srN
          ⟨2, [[(0, 1)], [(1, 1)]]⟩ ⟨2, [[(0, 1)], [(1, 1)]]⟩ false false).getRow 1
        = (⟨2, [[(0, 2)], [(1, 3)]]⟩ : LilSparseMatrix Nat).getRow 1 :=
  ⟨⟨by decide, by decide⟩,
   C10_Mask_NoAccum_empty_mask_row_keeps_C_row _ _ _ _ _ _ _ (by decide) (by decide)⟩

end GBTLABT
